import Mathlib

/-!
# Verification of the rlox front-end parser against its specification

This file shallowly embeds the parser combinator library and the parsers of
the `compiler` crate (files under `src/compiler/src/ast/` and
`src/compiler/src/span.rs`) and proves or refutes the spec claims about them.

Modelling conventions, used throughout:

* Rust `BigUint` is `Nat`, `BigInt` is `Int`; the `i32` range check of
  `i32::try_from` is made explicit (`int32TryFrom`).
* The source buffer is a `List Char` and offsets count characters.  The Rust
  code uses byte offsets (`char::len_utf8`); on the inputs considered in the
  theorems every character inside a measured span is ASCII, where byte and
  character offsets agree, so `len_utf8` is modelled as `1`.
* `Span<T>` of the source (a start/end byte range carrying a value, as used
  by `primitive.rs`, with the `concat` of `span.rs` taking min-start and
  max-end) is `SpanT`.  The `Rc<RefCell<String>>` source handle carried by
  spans and errors is omitted: it is the single shared buffer and carries no
  information the theorems inspect.
* A parser is a function from a scanner to either an advanced scanner plus a
  value or a spanned diagnostic, exactly as `ParseResult` in `ast/mod.rs`.
* `Parser::fold` of the source loops until the step parser fails.  The loop
  is embedded with explicit fuel (`Parser.foldGo`); the fuel
  `source.length + 1` is sufficient whenever every successful step advances
  the offset, which holds for every step parser appearing in this
  development.  Exhausted fuel models the divergence of the source's loop on
  a non-advancing step and surfaces as the artificial `ErrorCode.fuelOut`,
  which no embedded parser ever produces on the inputs considered.
-/

set_option maxHeartbeats 4000000
set_option maxRecDepth 10000

/-- `Span<T>` / `SpanOf<T>` of `span.rs` and `error.rs`: a half-open range
`[start, stop)` into the shared source buffer carrying a value.  The Rust
field `end` is called `stop` here (`end` is reserved in Lean). -/
structure SpanT (α : Type) where
  start : Nat
  stop : Nat
  value : α
  deriving Repr, DecidableEq

namespace SpanT

/-- `Span::new(start, end, value)`. -/
def new (start stop : Nat) (value : α) : SpanT α := ⟨start, stop, value⟩

/-- `Span::from_len(offset, len, value)`. -/
def fromLen (start len : Nat) (value : α) : SpanT α := ⟨start, start + len, value⟩

/-- `Span::map` / `SpanOf::map`: keep the range, transform the value. -/
def map (s : SpanT α) (f : α → β) : SpanT β := ⟨s.start, s.stop, f s.value⟩

/-- `SpanOf::combine` (via `Span::concat`): min-start, max-end, combined value. -/
def combine (s : SpanT α) (t : SpanT β) (f : α → β → γ) : SpanT γ :=
  ⟨min s.start t.start, max s.stop t.stop, f s.value t.value⟩

/-- `SpanOf::replace`. -/
def replace (s : SpanT α) (v : β) : SpanT β := ⟨s.start, s.stop, v⟩

end SpanT

/-- The diagnostic taxonomy of `ast/error.rs` (`ErrorCode`), together with the
codes constructed by the newer modules (`ExpectedString`/`ExpectedStrings` in
`ast/mod.rs`, `NoExpression` in `ast/primary.rs`, `UnexpectedToken` in
`ast/primitive.rs`, `CannotAssign` in `ast/assign.rs`).  `fuelOut` is an
artifact of the embedding only (see the module comment); the source has no
corresponding diagnostic and no theorem below ever exhibits it. -/
inductive ErrorCode where
  | Eof
  | ExpectedToken (s : String)
  | ExpectedChar (c : Char)
  | ExpectedBase
  | ExpectedInt
  | CharNotMatch
  | CharNotDigit
  | ExponentOverflow
  | MissingExponent
  | StringLiteralIncomplete
  | CharLiteralIncomplete
  | CharLiteralEmpty
  | MissingEscape
  | InvalidEscape
  | UnicodeOverflow
  | InvalidUnicode
  | UnexpectedToken (s : String)
  | ExpectedString (s : String)
  | ExpectedStrings (s : List String)
  | NoExpression
  | CannotAssign
  | fuelOut
  deriving Repr, DecidableEq

/-- The scanner as used by the parsers of `ast/primitive.rs`: the complete
source and a cursor offset (`Scanner { source, offset }`). -/
structure Scanner where
  source : List Char
  offset : Nat
  deriving Repr, DecidableEq

/-- A spanned diagnostic (`SpanOf<Error>` / `Error { code }`). -/
abbrev PError := SpanT ErrorCode

/-- `ParseResult<T>` of `ast/mod.rs`. -/
abbrev ParseResult (α : Type) := Except PError (Scanner × α)

/-- The parser abstraction of `ast/mod.rs`: `Scanner -> ParseResult<T>`. -/
def Parser (α : Type) : Type := Scanner → ParseResult α

namespace Parser

/-- `Parser::new_ok`. -/
def newOk (v : α) : Parser α := fun s => .ok (s, v)

/-- `Parser::new_err`. -/
def newErr (e : PError) : Parser α := fun _ => .error e

/-- `Parser::new_err_current`: zero-length span at the current offset. -/
def newErrCurrent (c : ErrorCode) : Parser α :=
  fun s => .error ⟨s.offset, s.offset, c⟩

/-- `Parser::map`. -/
def map (p : Parser α) (f : α → β) : Parser β := fun s =>
  match p s with
  | .ok (s1, a) => .ok (s1, f a)
  | .error e => .error e

/-- `Parser::map_err`. -/
def mapErr (p : Parser α) (f : PError → PError) : Parser α := fun s =>
  match p s with
  | .ok r => .ok r
  | .error e => .error (f e)

/-- `Parser::and_then`: sequential composition, the continuation runs on the
advanced scanner; failure of the first is the overall failure. -/
def andThen (p : Parser α) (f : α → Parser β) : Parser β := fun s =>
  match p s with
  | .ok (s1, a) => f a s1
  | .error e => .error e

/-- `Parser::or_else`: on failure the alternative runs on the original
scanner. -/
def orElse (p : Parser α) (f : PError → Parser α) : Parser α := fun s =>
  match p s with
  | .error e => f e s
  | .ok r => .ok r

/-- `Parser::then_or`: branch on success/failure, the failure branch runs on
the original scanner. -/
def thenOr (p : Parser α) (ok : α → Parser β) (err : PError → Parser β) :
    Parser β := fun s =>
  match p s with
  | .ok (s1, a) => ok a s1
  | .error e => err e s

/-- `Parser::optional`. -/
def optional (p : Parser α) : Parser (Option α) := fun s =>
  match p s with
  | .ok (s1, a) => .ok (s1, some a)
  | .error _ => .ok (s, none)

/-- The loop body of `Parser::fold`, with explicit fuel standing for the
unbounded `loop` of the source; `none` means the fuel ran out, which for a
step parser that advances on success is unreachable with fuel exceeding the
remaining input length. -/
def foldGo (step : Parser β) (f : α → β → α) :
    Nat → α → Scanner → Option (Scanner × α)
  | 0, _, _ => none
  | fuel + 1, acc, s =>
    match step s with
    | .ok (s1, b) => foldGo step f fuel (f acc b) s1
    | .error _ => some (s, acc)

/-- `Parser::fold`: run the receiver for the initial accumulator, then repeat
the step parser until it fails, folding each success into the accumulator. -/
def fold (self : Parser α) (step : Parser β) (f : α → β → α) : Parser α :=
  fun s =>
    match self s with
    | .ok (s1, a) =>
      match foldGo step f (s1.source.length + 1) a s1 with
      | some (s2, acc) => .ok (s2, acc)
      | none => .error ⟨s1.offset, s1.offset, .fuelOut⟩
    | .error e => .error e

end Parser

/-- `next_char_parser` of `ast/primitive.rs`: the next character with its
span, or `Eof` with a zero-length span at the current offset. -/
def nextCharP : Parser (SpanT Char) := fun s =>
  match s.source.get? s.offset with
  | some c => .ok (⟨s.source, s.offset + 1⟩, ⟨s.offset, s.offset + 1, c⟩)
  | none => .error ⟨s.offset, s.offset, .Eof⟩

/-- `string_eq_parser` of `ast/primitive.rs`: match a literal string at the
cursor (`source[offset..].starts_with(string)`), else `ExpectedToken` with a
zero-length span. -/
def stringEqP (str : String) : Parser (SpanT String) := fun s =>
  if str.toList.isPrefixOf (s.source.drop s.offset) then
    .ok (⟨s.source, s.offset + str.length⟩,
         ⟨s.offset, s.offset + str.length, str⟩)
  else
    .error ⟨s.offset, s.offset, .ExpectedToken str⟩

/-- `strings_eq_parser` of `ast/mod.rs`: try each candidate string in order,
returning the first match, else `ExpectedStrings`. -/
def stringsEqP : List String → Parser (SpanT String)
  | [] => Parser.newErrCurrent (.ExpectedStrings [])
  | strs => fun s =>
    match go strs s with
    | some r => .ok r
    | none => .error ⟨s.offset, s.offset, .ExpectedStrings strs⟩
where
  go : List String → Scanner → Option (Scanner × SpanT String)
    | [], _ => none
    | str :: rest, s =>
      match stringEqP str s with
      | .ok r => some r
      | .error _ => go rest s

/-- `char_eq_parser` of `ast/primitive.rs`. -/
def charEqP (c : Char) : Parser (SpanT Char) :=
  nextCharP.andThen fun ch =>
    if ch.value = c then Parser.newOk ch
    else Parser.newErr (ch.map fun _ => .ExpectedChar c)

/-- `chars_eq_parser` of `ast/mod.rs` (unused by the claims but part of the
character-matcher family). -/
def charsEqP (cs : List Char) : Parser (SpanT Char) :=
  nextCharP.andThen fun ch =>
    if cs.contains ch.value then Parser.newOk ch
    else Parser.newErr (ch.map fun _ => .CharNotMatch)

/-- `char_match_parser` of `ast/primitive.rs`. -/
def charMatchP (f : Char → Bool) : Parser (SpanT Char) :=
  nextCharP.andThen fun ch =>
    if f ch.value then Parser.newOk ch
    else Parser.newErr (ch.map fun _ => .CharNotMatch)

/-- Rust `char::to_digit(radix)`: `0-9`, `a-z`, `A-Z` with value below the
radix. -/
def digitVal? (radix : Nat) (c : Char) : Option Nat :=
  let d? : Option Nat :=
    if '0' ≤ c ∧ c ≤ '9' then some (c.toNat - 48)
    else if 'a' ≤ c ∧ c ≤ 'z' then some (c.toNat - 97 + 10)
    else if 'A' ≤ c ∧ c ≤ 'Z' then some (c.toNat - 65 + 10)
    else none
  match d? with
  | some d => if d < radix then some d else none
  | none => none

/-- `digit_parser` of `ast/primitive.rs`. -/
def digitP (radix : Nat) : Parser (SpanT Nat) :=
  nextCharP.andThen fun ch =>
    match digitVal? radix ch.value with
    | some d => Parser.newOk (ch.map fun _ => d)
    | none => Parser.newErr (ch.map fun _ => .CharNotDigit)

/-- `integer_parser` of `ast/primitive.rs`: one required digit (the failure
is re-labelled `ExpectedInt`), then a fold over further digits, where a `_`
separator may precede a digit. -/
def integerP (radix : Nat) : Parser (SpanT Nat) :=
  (((digitP radix).mapErr fun e => e.map fun _ => .ExpectedInt).map
      fun d => d).fold
    ((digitP radix).orElse fun _ =>
      (charEqP '_').andThen fun _ => digitP radix)
    (fun acc digit => acc.combine digit fun a d => a * radix + d)

/-- `NumberToken` of `ast/primitive.rs`. -/
structure NumberToken where
  radix : Nat
  integer : Nat
  exponent : Option Int
  deriving Repr, DecidableEq

/-- `decimal_parser` of `ast/primitive.rs`: `integer ('.' integer?)?`.  Note
that `frac_len` is the length of the fractional span minus one (the dot), so
it counts `_` separators along with the digits. -/
def decimalP (radix : Nat) : Parser (SpanT NumberToken) :=
  (integerP radix).andThen fun whole =>
    ((((charEqP '.').andThen fun dot =>
        ((integerP radix).map fun frac =>
          dot.combine frac fun _ fr => fr).orElse fun _ =>
          Parser.newOk (dot.map fun _ => 0)).map fun frac =>
      let fracLen := frac.stop - frac.start - 1
      whole.combine frac fun wh fr =>
        { radix := radix
          integer := wh * radix ^ fracLen + fr
          exponent := some (-(fracLen : Int)) }).orElse fun _ =>
      Parser.newOk (whole.map fun wh =>
        { radix := radix, integer := wh, exponent := none }))

/-- Rust `i32::try_from` on a `BigInt`. -/
def int32TryFrom (n : Int) : Option Int :=
  if -(2 ^ 31) ≤ n ∧ n < 2 ^ 31 then some n else none

/-- `exponent_parser` of `ast/primitive.rs`: after a decimal, an optional
exponent marker (`e`/`E` for radix ≤ 10, else `p`/`P`), an optional sign and
an integer in the same radix; the parsed exponent is added (signed) to the
decimal's exponent with an `i32` overflow check.  The final `or_else`
returns the decimal unchanged whenever anything in the marker chain fails. -/
def exponentP (radix : Nat) : Parser (SpanT NumberToken) :=
  (decimalP radix).andThen fun decimal =>
    ((((if radix ≤ 10 then
          charMatchP fun ch => ch = 'e' ∨ ch = 'E'
        else
          charMatchP fun ch => ch = 'p' ∨ ch = 'P').map fun exp =>
        decimal.combine exp fun d _ => d).andThen fun decimal1 =>
      (((charEqP '+').orElse fun _ => charEqP '-').map fun sign =>
          (decimal1, some sign)).orElse fun _ =>
        Parser.newOk (decimal1, none)).andThen fun ds =>
      (((integerP radix).andThen fun exponent =>
        let exp0 : Int := (exponent.value : Int)
        let exp1 : Int :=
          match ds.2 with
          | some sg => if sg.value = '-' then -exp0 else exp0
          | none => exp0
        let exp2 : Int :=
          match ds.1.value.exponent with
          | some oldExp => exp1 + oldExp
          | none => exp1
        match int32TryFrom exp2 with
        | some exp =>
          Parser.newOk (SpanT.new ds.1.start exponent.stop
            { radix := ds.1.value.radix
              integer := ds.1.value.integer
              exponent := some exp })
        | none =>
          Parser.newErr
            (SpanT.new exponent.start exponent.stop .ExponentOverflow)).orElse
        fun _ =>
          Parser.newErr (ds.1.map fun _ => .MissingExponent))).orElse fun _ =>
      Parser.newOk decimal

/-- `radix_parser` of `ast/primitive.rs`: `0` then `b`/`o`/`x`; the failure
of the prefix letter is re-labelled `ExpectedBase`. -/
def radixP : Parser (SpanT Nat) :=
  (charEqP '0').andThen fun zero =>
    (((((charEqP 'b').map fun ch => ch.map fun _ => 2).orElse fun _ =>
        (charEqP 'o').map fun ch => ch.map fun _ => 8).orElse fun _ =>
        (charEqP 'x').map fun ch => ch.map fun _ => 16).map fun radix =>
      zero.combine radix fun _ r => r).mapErr fun e =>
      e.map fun _ => .ExpectedBase

/-- `number_parser` of `ast/primitive.rs`: a radix-prefixed number, else a
radix-10 number from the original position. -/
def numberP : Parser (SpanT NumberToken) :=
  (radixP.andThen fun radix =>
    (exponentP radix.value).map fun n => radix.combine n fun _ m => m).orElse
    fun _ => exponentP 10

/-- Rust `char::from_u32`: valid scalar values only (no surrogates, at most
`0x10FFFF`). -/
def charFromU32 (n : Nat) : Option Char :=
  if n < 0xd800 ∨ (0xe000 ≤ n ∧ n < 0x110000) then some (Char.ofNat n)
  else none

/-- Rust `u32::try_from` on a `BigUint`. -/
def u32TryFrom (n : Nat) : Option Nat :=
  if n < 2 ^ 32 then some n else none

/-- The escape dispatch of `escape_char_parser` in `ast/primitive.rs`,
without the final `map_err`: a backslash, the escape character, then either
a plain escape, `\u{hex}` with overflow/validity checks, `\xHH`, or
`InvalidEscape`. -/
def escapeCharBody : Parser (SpanT Char) :=
  (((charEqP '\\').andThen fun slash =>
      nextCharP.map fun ch => slash.combine ch fun _ c => c).andThen fun ch =>
    if ch.value = 'n' ∨ ch.value = 't' ∨ ch.value = 'r' ∨ ch.value = '\\' ∨
        ch.value = '\'' ∨ ch.value = '"' ∨ ch.value = '0' then
      Parser.newOk (ch.map fun c =>
        if c = 'n' then '\n'
        else if c = 't' then '\t'
        else if c = 'r' then '\r'
        else if c = '\\' then '\\'
        else if c = '\'' then '\''
        else if c = '"' then '"'
        else '\x00')
    else if ch.value = 'u' ∨ ch.value = 'U' then
      (((charEqP (Char.ofNat 123)).andThen fun brace =>
          (integerP 16).map fun hex => brace.combine hex fun _ h => h).andThen
        fun hex =>
          (charEqP (Char.ofNat 125)).map fun brace =>
            hex.combine brace fun h _ => h).andThen fun hex =>
        match u32TryFrom hex.value with
        | none => Parser.newErr (hex.map fun _ => .UnicodeOverflow)
        | some hexValue =>
          match charFromU32 hexValue with
          | none => Parser.newErr (hex.map fun _ => .InvalidUnicode)
          | some character => Parser.newOk (hex.map fun _ => character)
    else if ch.value = 'x' ∨ ch.value = 'X' then
      (digitP 16).andThen fun first =>
        (digitP 16).map fun second =>
          first.combine second fun f s => Char.ofNat (f * 16 + s)
    else
      Parser.newErr (ch.map fun _ => .InvalidEscape))

/-- `escape_char_parser` of `ast/primitive.rs`: the body above followed by
`map_err` re-labelling every diagnostic as `MissingEscape`. -/
def escapeCharP : Parser (SpanT Char) :=
  escapeCharBody.mapErr fun e => e.map fun _ => .MissingEscape

/-- `string_lit_parser` of `ast/primitive.rs`. -/
def stringLitP : Parser (SpanT String) :=
  (((charEqP '"').map fun q => q.map fun _ => "").fold
      (escapeCharP.orElse fun _ =>
        charMatchP fun ch => ch ≠ '"' ∧ ch ≠ '\n')
      (fun str ch => str.combine ch fun st c => st.push c)).andThen fun str =>
    ((charEqP '"').orElse fun _ =>
      Parser.newErr (str.map fun _ => .StringLiteralIncomplete)).map fun q =>
      str.combine q fun st _ => st

/-- `char_lit_parser` of `ast/primitive.rs`. -/
def charLitP : Parser (SpanT Char) :=
  ((charEqP '\'').andThen fun q =>
    ((escapeCharP.orElse fun _ =>
        charMatchP fun ch => ch ≠ '\'' ∧ ch ≠ '\n').mapErr fun e =>
      e.map fun ec => (q.combine ⟨e.start, e.stop, ec⟩ fun _ _ =>
        ErrorCode.CharLiteralEmpty).value).map fun ch =>
      q.combine ch fun _ c => c).andThen fun ch =>
    ((charEqP '\'').mapErr fun _ =>
      ch.map fun _ => .CharLiteralIncomplete).map fun q =>
      ch.combine q fun c _ => c

/-- `string_not_eq_parser` of `ast/primitive.rs`: succeed without consuming
when the literal does *not* start at the cursor. -/
def stringNotEqP (str : String) : Parser (SpanT String) := fun s =>
  if str.toList.isPrefixOf (s.source.drop s.offset) then
    .error ⟨s.offset, s.offset + s.source.length, .UnexpectedToken str⟩
  else
    .ok (s, ⟨s.offset, s.offset, str⟩)

/-- `whitespace_parser` of `ast/primitive.rs`.  Lean's `Char.isWhitespace`
(space, tab, carriage return, newline) stands for Rust's Unicode
`char::is_whitespace`; the two agree on every character appearing in the
theorems below. -/
def whitespaceP : Parser (SpanT Unit) :=
  (charMatchP fun ch => ch.isWhitespace).map fun ch => ch.map fun _ => ()

/-- `line_comment_parser` of `ast/primitive.rs`: `//` then everything up to
(but excluding) the next newline. -/
def lineCommentP : Parser (SpanT Unit) :=
  (stringEqP "//").andThen fun comment =>
    (((charMatchP fun ch => ch ≠ '\n').map fun ch =>
        comment.combine ch fun _ _ => ()).orElse fun _ =>
      Parser.newOk (comment.map fun _ => ())).fold
      (charMatchP fun ch => ch ≠ '\n')
      (fun acc ch => acc.combine ch fun _ _ => ())

/-- `block_comment_parser` of `ast/primitive.rs`: `/*` up to `*/`, where an
unterminated comment consumes to end of input without error. -/
def blockCommentP : Parser (SpanT Unit) :=
  (stringEqP "/*").andThen fun comment =>
    ((((stringNotEqP "*/").map fun _ => comment.map fun _ => ()).orElse
        fun _ => Parser.newOk (comment.map fun _ => ())).fold
      ((stringNotEqP "*/").andThen fun _ => nextCharP)
      (fun acc ch => acc.combine ch fun _ _ => ())).andThen fun com =>
      ((stringEqP "*/").map fun e => com.combine e fun _ _ => ()).orElse
        fun _ => Parser.newOk com

/-- The whitespace-or-comment alternative inside `skip_parser`
(`ast/primitive.rs`). -/
def skipOneOf : Parser (SpanT Unit) :=
  (whitespaceP.orElse fun _ => lineCommentP).orElse fun _ => blockCommentP

/-- `skip_parser` of `ast/primitive.rs` (the mode-less version in `src`):
fold whitespace and comments, or succeed with a zero-length span. -/
def skipP : Parser (SpanT Unit) :=
  (skipOneOf.fold skipOneOf fun a b => SpanT.new a.start b.stop ()).orElse
    fun e => Parser.newOk (SpanT.fromLen e.start 0 ())

/-! ## The expression layer

`ast/primary.rs`, `ast/unary.rs` and `ast/binary.rs` thread a `skip_newline`
mode through every primitive (`skip_parser(skip_newline)`,
`ident_parser(skip_newline)`, `number_parser(skip_newline)`, …).  The
mode-aware versions of these primitives are not part of `src` (the
`primitive.rs` in `src` is the mode-less revision), so they are modelled
from the spec below. -/

/-- Modelled from the spec: the whitespace matcher of `skip(skip_newline)`
(§4.3) — when `skip_newline` is false, newline characters are not
whitespace. -/
def whitespacePM (nl : Bool) : Parser (SpanT Unit) :=
  (charMatchP fun ch =>
    ch.isWhitespace ∧ (nl ∨ (ch ≠ '\n' ∧ ch ≠ '\r'))).map fun ch =>
    ch.map fun _ => ()

/-- Modelled from the spec: the whitespace-or-comment alternative of
`skip(skip_newline)`; comments are skipped as in the mode-less
`skip_parser`. -/
def skipOneOfM (nl : Bool) : Parser (SpanT Unit) :=
  ((whitespacePM nl).orElse fun _ => lineCommentP).orElse fun _ =>
    blockCommentP

/-- Modelled from the spec: `skip(skip_newline)` (§4.3) — iteratively
consume whitespace and comments, never failing; same shape as the mode-less
`skip_parser` of `ast/primitive.rs`. -/
def skipPM (nl : Bool) : Parser (SpanT Unit) :=
  ((skipOneOfM nl).fold (skipOneOfM nl) fun a b =>
    SpanT.new a.start b.stop ()).orElse fun e =>
    Parser.newOk (SpanT.fromLen e.start 0 ())

/-- Modelled from the spec: the identifier token (§4.3) —
`[alpha|_][alpha|digit|_]*`.  Lean's ASCII `Char.isAlpha`/`Char.isAlphanum`
stand for the Unicode classes of the source; all identifiers in the
theorems below are ASCII. -/
def identTokenP : Parser (SpanT String) :=
  ((charMatchP fun c => c.isAlpha ∨ c = '_').map fun ch =>
      ch.map fun c => String.singleton c).fold
    (charMatchP fun c => c.isAlphanum ∨ c = '_')
    (fun acc ch => acc.combine ch fun st c => st.push c)

/-- Modelled from the spec: `ident_parser(skip_newline)` — skip, then an
identifier token. -/
def identPM (nl : Bool) : Parser (SpanT String) :=
  (skipPM nl).andThen fun _ => identTokenP

/-- Modelled from the spec: `number_parser(skip_newline)` as called by
`primary_parser` — skip, then the number token parser of
`ast/primitive.rs`. -/
def numberPM (nl : Bool) : Parser (SpanT NumberToken) :=
  (skipPM nl).andThen fun _ => numberP

/-- Modelled from the spec: `char_lit_parser(skip_newline)` — skip, then the
character-literal parser of `ast/primitive.rs`. -/
def charLitPM (nl : Bool) : Parser (SpanT Char) :=
  (skipPM nl).andThen fun _ => charLitP

/-- Modelled from the spec: `string_lit_parser(skip_newline)` — skip, then
the string-literal parser of `ast/primitive.rs`. -/
def stringLitPM (nl : Bool) : Parser (SpanT String) :=
  (skipPM nl).andThen fun _ => stringLitP

/-- `symbol_parser` of `ast/primary.rs`: skip, then a literal token. -/
def symbolP (nl : Bool) (symbol : String) : Parser (SpanT String) :=
  (skipPM nl).andThen fun _ => stringEqP symbol

/-- `symbols_parser` of `ast/primary.rs`: skip, then the first matching
token of an ordered candidate list. -/
def symbolsP (nl : Bool) (symbols : List String) : Parser (SpanT String) :=
  (skipPM nl).andThen fun _ => stringsEqP symbols

/-- `PrefixOperator` of `ast/unary.rs`. -/
inductive PrefixOperator where
  | negate
  | not
  | bitNot
  deriving Repr, DecidableEq

/-- `PrefixOperator::try_from_str`. -/
def PrefixOperator.tryFromStr (s : String) : Option PrefixOperator :=
  if s = "-" then some .negate
  else if s = "!" then some .not
  else if s = "~" then some .bitNot
  else none

/-- `Operator` of `ast/binary.rs`; `assign (some op)` is a compound
assignment. -/
inductive Operator where
  | add | sub | mul | div | mod
  | and | or
  | bitAnd | bitOr | bitXor
  | lShift | rShift
  | lessThan | lessThanEq | moreThan | moreThanEq
  | equals | notEq
  | assign (inner : Option Operator)
  deriving Repr

/-- The recursion of `Operator::try_from_str` of `ast/binary.rs`, on the
character list of the operator spelling, with fuel in place of the
length-decreasing recursion of the source (so that the definition reduces
definitionally): the exact table first, then the trailing-`=`
compound-assignment case, which rejects comparisons and assignment as inner
operators. -/
def Operator.tryFromCharsGo : Nat → List Char → Option Operator
  | _, ['+'] => some .add
  | _, ['-'] => some .sub
  | _, ['*'] => some .mul
  | _, ['/'] => some .div
  | _, ['%'] => some .mod
  | _, ['&'] => some .bitAnd
  | _, ['|'] => some .bitOr
  | _, ['^'] => some .bitXor
  | _, ['<', '<'] => some .lShift
  | _, ['>', '>'] => some .rShift
  | _, ['<'] => some .lessThan
  | _, ['<', '='] => some .lessThanEq
  | _, ['>'] => some .moreThan
  | _, ['>', '='] => some .moreThanEq
  | _, ['=', '='] => some .equals
  | _, ['!', '='] => some .notEq
  | _, ['='] => some (.assign none)
  | _, ['a', 'n', 'd'] => some .and
  | _, ['&', '&'] => some .and
  | _, ['o', 'r'] => some .or
  | _, ['|', '|'] => some .or
  | 0, _ => none
  | fuel + 1, l =>
    if l.getLast? = some '=' then
      match Operator.tryFromCharsGo fuel l.dropLast with
      | some op =>
        match op with
        | .equals | .notEq | .lessThan | .lessThanEq
        | .moreThan | .moreThanEq | .assign _ => none
        | op => some (.assign (some op))
      | none => none
    else none

/-- `Operator::try_from_str` of `ast/binary.rs` (fuel equal to the spelling
length is ample: each recursive step strips one trailing `=`). -/
def Operator.tryFromChars (l : List Char) : Option Operator :=
  Operator.tryFromCharsGo l.length l

mutual
/-- `Expression` of `ast/expression.rs` (with `PrefixUnary`, `PostfixUnary`
and `Binary` inlined as constructor fields, and `Ident` as a spanned
string). -/
inductive Expression where
  | ident : SpanT String → Expression
  | charLit : SpanT Char → Expression
  | strLit : SpanT String → Expression
  | number : SpanT NumberToken → Expression
  | group : SpanT Expression → Expression
  | array : SpanT (List Expression) → Expression
  | prefixUnary : SpanT PrefixOperator → Expression → Expression
  | postfixUnary : Expression → SpanT PostfixOperator → Expression
  | binary : Expression → SpanT Operator → Expression → Expression
  deriving Repr
/-- `PostfixOperator` of `ast/unary.rs`. -/
inductive PostfixOperator where
  | call : List Expression → PostfixOperator
  | property : SpanT String → PostfixOperator
  | index : Expression → PostfixOperator
  deriving Repr
end

/-- The span-erased shape of an `Expression`, used to state parse results
without spelling out every span. -/
inductive STree where
  | num : NumberToken → STree
  | chr : Char → STree
  | str : String → STree
  | idn : String → STree
  | grp : STree → STree
  | arr : List STree → STree
  | pre : PrefixOperator → STree → STree
  | call : STree → List STree → STree
  | prop : STree → String → STree
  | idx : STree → STree → STree
  | bin : STree → Operator → STree → STree
  deriving Repr

mutual
/-- Erase the spans of an expression, keeping its full shape. -/
def strip : Expression → STree
  | .ident i => .idn i.value
  | .charLit c => .chr c.value
  | .strLit s => .str s.value
  | .number n => .num n.value
  | .group ⟨_, _, g⟩ => .grp (strip g)
  | .array ⟨_, _, a⟩ => .arr (stripList a)
  | .prefixUnary op e => .pre op.value (strip e)
  | .postfixUnary e ⟨_, _, .call args⟩ => .call (strip e) (stripList args)
  | .postfixUnary e ⟨_, _, .property p⟩ => .prop (strip e) p.value
  | .postfixUnary e ⟨_, _, .index i⟩ => .idx (strip e) (strip i)
  | .binary l op r => .bin (strip l) op.value (strip r)
/-- Erase the spans of a list of expressions. -/
def stripList : List Expression → List STree
  | [] => []
  | e :: es => strip e :: stripList es
end

/-- The digit characters used by `num_bigint`'s `to_str_radix`
(lowercase). -/
def radixDigitChar (d : Nat) : Char :=
  if d < 10 then Char.ofNat (48 + d) else Char.ofNat (97 + d - 10)

/-- The digit list of `to_str_radix`, most significant first (fueled
division loop). -/
def natToStrRadixGo (radix : Nat) : Nat → Nat → List Char
  | 0, _ => []
  | fuel + 1, n =>
    if n = 0 then []
    else natToStrRadixGo radix fuel (n / radix) ++ [radixDigitChar (n % radix)]

/-- `num_bigint`'s `to_str_radix`. -/
def natToStrRadix (radix n : Nat) : String :=
  if n = 0 then "0" else ⟨natToStrRadixGo radix (n + 1) n⟩

/-- Rust's decimal `Display` for a signed integer. -/
def intToStr (i : Int) : String :=
  if i < 0 then "-" ++ natToStrRadix 10 i.natAbs else natToStrRadix 10 i.natAbs

/-- The `Display` impl of `Number` in `ast/expression.rs`: radix prefix,
mantissa in the radix, and `e<exp>` when an exponent is present. -/
def NumberToken.render (n : NumberToken) : String :=
  let radixPre :=
    if n.radix = 2 then "0b"
    else if n.radix = 8 then "0o"
    else if n.radix = 16 then "0x"
    else ""
  match n.exponent with
  | some exp => radixPre ++ natToStrRadix n.radix n.integer ++ "e" ++ intToStr exp
  | none => radixPre ++ natToStrRadix n.radix n.integer

/-- The `Display` impl of `PrefixOperator` in `ast/unary.rs`. -/
def PrefixOperator.render : PrefixOperator → String
  | .negate => "-"
  | .not => "!"
  | .bitNot => "~"

/-- The `Display` impl of `Operator` in `ast/binary.rs`; a compound
assignment renders as the inner operator followed by `=`. -/
def Operator.render : Operator → String
  | .add => "+"
  | .sub => "-"
  | .mul => "*"
  | .div => "/"
  | .mod => "%"
  | .and => "and"
  | .or => "or"
  | .bitAnd => "&"
  | .bitOr => "|"
  | .bitXor => "^"
  | .lShift => "<<"
  | .rShift => ">>"
  | .lessThan => "<"
  | .lessThanEq => "<="
  | .moreThan => ">"
  | .moreThanEq => ">="
  | .equals => "=="
  | .notEq => "!="
  | .assign none => "="
  | .assign (some op) => Operator.render op ++ "="

mutual
/-- The `Display` impls of `Expression`, `Binary`, `PrefixUnary` and
`PostfixUnary` (`ast/expression.rs`, `ast/binary.rs`, `ast/unary.rs`):
binary renders as `(left)op(right)`, prefix as `op(operand)`, postfix as
`(operand)op`, a group renders its content transparently.  Character and
string literals render as the Rust debug form, simplified to plain quoting
(no literal below requires escaping). -/
def renderE : Expression → String
  | .ident i => i.value
  | .charLit c => "'" ++ String.singleton c.value ++ "'"
  | .strLit s => "\"" ++ s.value ++ "\""
  | .number n => n.value.render
  | .group ⟨_, _, g⟩ => renderE g
  | .array ⟨_, _, a⟩ => "[" ++ String.intercalate "," (renderList a) ++ "]"
  | .prefixUnary op e => op.value.render ++ "(" ++ renderE e ++ ")"
  | .postfixUnary e ⟨_, _, .call args⟩ =>
    "(" ++ renderE e ++ ")(" ++ String.intercalate "," (renderList args) ++ ")"
  | .postfixUnary e ⟨_, _, .property p⟩ => "(" ++ renderE e ++ ")." ++ p.value
  | .postfixUnary e ⟨_, _, .index i⟩ =>
    "(" ++ renderE e ++ ")[" ++ renderE i ++ "]"
  | .binary l op r =>
    "(" ++ renderE l ++ ")" ++ op.value.render ++ "(" ++ renderE r ++ ")"
/-- `Display` over a list of expressions (argument/element lists). -/
def renderList : List Expression → List String
  | [] => []
  | e :: es => renderE e :: renderList es
end

/-- The fuel sentinel for the mutually recursive expression grammar: an
embedding artifact only, unreachable for adequate fuel (every recursive
entry consumes fuel `n + 1 → n` and the grammar's recursion depth on the
inputs of the theorems below is far below the fuel used there). -/
def noFuelE : Parser α := fun s => .error ⟨s.offset, s.offset, .fuelOut⟩

/-- `operator_parser` of `ast/binary.rs`: a symbol from an ordered candidate
list, decoded by `Operator::try_from_str` (whose `unwrap` is modelled by a
default that is unreachable for the operator tables used). -/
def operatorE (nl : Bool) (strs : List String) : Parser (SpanT Operator) :=
  (symbolsP nl strs).map fun i => i.map fun str =>
    match Operator.tryFromChars str.toList with
    | some op => op
    | none => .assign none

/-- `l_binary_parser` of `ast/binary.rs`: left-fold `lower (op lower)*` into
left-associated `Binary` nodes. -/
def lBinaryP (lower : Parser Expression) (operator : Parser (SpanT Operator)) :
    Parser Expression :=
  lower.fold
    (operator.andThen fun op => lower.map fun right => (op, right))
    (fun left pr => .binary left pr.1 pr.2)

/-- The operator spellings of `assign_parser` in `ast/binary.rs`, in source
order. -/
def assignOpStrings : List String :=
  ["+=", "-=", "*=", "/=", "%=", "<<=", ">>=", "&=", "^=", "|=", "&&=",
   "||=", "="]

mutual
/-- `expression_parser(skip_newline)` of `ast/expression.rs`: delegates to
the binary expression parser. -/
def expressionE : Nat → Bool → Parser Expression
  | 0, _ => noFuelE
  | n + 1, nl => binaryExpressionE n nl
/-- `binary_expression_parser` of `ast/binary.rs`: delegates to the
assignment level. -/
def binaryExpressionE : Nat → Bool → Parser Expression
  | 0, _ => noFuelE
  | n + 1, nl => assignE n nl
/-- `assign_parser` of `ast/binary.rs` (its `r_binary_parser` inlined):
right-recursive `lower (assign-op assign)?`, falling back to a fresh parse
of the lower level when the operator or the right-hand side fails. -/
def assignE : Nat → Bool → Parser Expression
  | 0, _ => noFuelE
  | n + 1, nl =>
    ((logicOrE n nl).andThen fun left =>
      (operatorE nl assignOpStrings).andThen fun op =>
        (assignE n nl).map fun right => .binary left op right).orElse fun _ =>
      logicOrE n nl
/-- `logic_or_parser` of `ast/binary.rs`. -/
def logicOrE : Nat → Bool → Parser Expression
  | 0, _ => noFuelE
  | n + 1, nl => lBinaryP (logicAndE n nl) (operatorE nl ["or", "||"])
/-- `logic_and_parser` of `ast/binary.rs`. -/
def logicAndE : Nat → Bool → Parser Expression
  | 0, _ => noFuelE
  | n + 1, nl => lBinaryP (bitOrE n nl) (operatorE nl ["and", "&&"])
/-- `bit_or_parser` of `ast/binary.rs`. -/
def bitOrE : Nat → Bool → Parser Expression
  | 0, _ => noFuelE
  | n + 1, nl => lBinaryP (bitXorE n nl) (operatorE nl ["|"])
/-- `bit_xor_parser` of `ast/binary.rs`. -/
def bitXorE : Nat → Bool → Parser Expression
  | 0, _ => noFuelE
  | n + 1, nl => lBinaryP (bitAndE n nl) (operatorE nl ["^"])
/-- `bit_and_parser` of `ast/binary.rs`. -/
def bitAndE : Nat → Bool → Parser Expression
  | 0, _ => noFuelE
  | n + 1, nl => lBinaryP (eqE n nl) (operatorE nl ["&"])
/-- `eq_parser` of `ast/binary.rs`. -/
def eqE : Nat → Bool → Parser Expression
  | 0, _ => noFuelE
  | n + 1, nl => lBinaryP (nonEqE n nl) (operatorE nl ["==", "!="])
/-- `non_eq_parser` of `ast/binary.rs`. -/
def nonEqE : Nat → Bool → Parser Expression
  | 0, _ => noFuelE
  | n + 1, nl => lBinaryP (shiftE n nl) (operatorE nl ["<=", ">=", "<", ">"])
/-- `shift_parser` of `ast/binary.rs`. -/
def shiftE : Nat → Bool → Parser Expression
  | 0, _ => noFuelE
  | n + 1, nl => lBinaryP (termE n nl) (operatorE nl ["<<", ">>"])
/-- `term_parser` of `ast/binary.rs`. -/
def termE : Nat → Bool → Parser Expression
  | 0, _ => noFuelE
  | n + 1, nl => lBinaryP (productE n nl) (operatorE nl ["+", "-"])
/-- `product_parser` of `ast/binary.rs`. -/
def productE : Nat → Bool → Parser Expression
  | 0, _ => noFuelE
  | n + 1, nl => lBinaryP (unaryExpressionE n nl) (operatorE nl ["*", "/", "%"])
/-- `unary_expression_parser` of `ast/unary.rs`. -/
def unaryExpressionE : Nat → Bool → Parser Expression
  | 0, _ => noFuelE
  | n + 1, nl => prefixUnaryE n nl
/-- `prefix_unary_parser` of `ast/unary.rs`: `(op prefix) | postfix`, with
the `unwrap` of `PrefixOperator::try_from_str` modelled by a default
unreachable for the symbol table used. -/
def prefixUnaryE : Nat → Bool → Parser Expression
  | 0, _ => noFuelE
  | n + 1, nl =>
    (((symbolsP nl ["-", "!", "~"]).map fun s =>
        s.map fun str =>
          match PrefixOperator.tryFromStr str with
          | some op => op
          | none => .negate).andThen fun op =>
      (prefixUnaryE n nl).map fun e => .prefixUnary op e).orElse fun _ =>
      postfixUnaryE n nl
/-- `postfix_unary_parser` of `ast/unary.rs`: left-fold a primary over
property, call and index postfix operators (tried in that order). -/
def postfixUnaryE : Nat → Bool → Parser Expression
  | 0, _ => noFuelE
  | n + 1, nl =>
    (primaryE n nl).fold
      (((postfixPropertyE n nl).orElse fun _ => postfixCallE n nl).orElse
        fun _ => postfixIndexE n nl)
      (fun operand operator => .postfixUnary operand operator)
/-- `postfix_property_parser` of `ast/unary.rs`: `.` then an identifier. -/
def postfixPropertyE : Nat → Bool → Parser (SpanT PostfixOperator)
  | 0, _ => noFuelE
  | n + 1, nl =>
    have _ := n
    (symbolP nl ".").andThen fun dot =>
      (identPM nl).map fun id => dot.combine id fun _ _ => .property id
/-- `postfix_index_parser` of `ast/unary.rs`: `[`, an expression parsed by
`inline_expression_parser()` (inline mode regardless of the caller's mode),
then `]` in the caller's mode. -/
def postfixIndexE : Nat → Bool → Parser (SpanT PostfixOperator)
  | 0, _ => noFuelE
  | n + 1, nl =>
    (symbolP nl "[").andThen fun lp =>
      (expressionE n false).andThen fun e =>
        (symbolP nl "]").map fun rp => lp.combine rp fun _ _ => .index e
/-- `postfix_call_parser` of `ast/unary.rs`: `(`, an optional argument list
parsed in the caller's mode, then `)` in the caller's mode. -/
def postfixCallE : Nat → Bool → Parser (SpanT PostfixOperator)
  | 0, _ => noFuelE
  | n + 1, nl =>
    (symbolP nl "(").andThen fun lp =>
      ((argsE n nl).orElse fun _ => Parser.newOk []).andThen fun args =>
        (symbolP nl ")").map fun rp => lp.combine rp fun _ _ => .call args
/-- `args_parser` of `ast/primary.rs`: a non-empty comma-separated list of
expressions in the given mode. -/
def argsE : Nat → Bool → Parser (List Expression)
  | 0, _ => noFuelE
  | n + 1, nl =>
    ((expressionE n nl).map fun e => [e]).fold
      ((symbolP nl ",").andThen fun _ => expressionE n nl)
      (fun args a => args ++ [a])
/-- `primary_parser` of `ast/primary.rs`: number, char literal, string
literal, identifier, group, array — in that order — with the failure
re-labelled `NoExpression`. -/
def primaryE : Nat → Bool → Parser Expression
  | 0, _ => noFuelE
  | n + 1, nl =>
    ((((((numberPM nl).map Expression.number).orElse fun _ =>
        (charLitPM nl).map Expression.charLit).orElse fun _ =>
        (stringLitPM nl).map Expression.strLit).orElse fun _ =>
        (identPM nl).map Expression.ident).orElse fun _ =>
        (groupE n nl).orElse fun _ => arrayE n nl).mapErr fun e =>
      e.map fun _ => .NoExpression
/-- `group_parser` of `ast/primary.rs`: `(`, an expression parsed by
`multiline_expression_parser()` (multi-line mode regardless of the caller's
mode), then `)` also in multi-line mode. -/
def groupE : Nat → Bool → Parser Expression
  | 0, _ => noFuelE
  | n + 1, nl =>
    (symbolP nl "(").andThen fun lp =>
      (expressionE n true).andThen fun e =>
        (symbolP true ")").map fun rp =>
          .group (lp.combine rp fun _ _ => e)
/-- `array_parser` of `ast/primary.rs`: `[`, an argument list in multi-line
mode, then `]` also in multi-line mode. -/
def arrayE : Nat → Bool → Parser Expression
  | 0, _ => noFuelE
  | n + 1, nl =>
    (symbolP nl "[").andThen fun lp =>
      (argsE n true).andThen fun elems =>
        (symbolP true "]").map fun rp =>
          .array (lp.combine rp fun _ _ => elems)
end

/-- `inline_expression_parser` of `ast/expression.rs`. -/
def inlineExpressionE (n : Nat) : Parser Expression := expressionE n false

/-- `multiline_expression_parser` of `ast/expression.rs`. -/
def multilineExpressionE (n : Nat) : Parser Expression := expressionE n true

/-- The fuel used for concrete parses in the theorems below; ample for every
input considered (the grammar consumes one fuel unit per recursive entry,
about 16 per precedence descent). -/
def exprFuel : Nat := 200

/-- Run the expression parser on an input and return the final offset and
the span-erased result shape. -/
def parseStrip (nl : Bool) (input : List Char) : Option (Nat × STree) :=
  match expressionE exprFuel nl ⟨input, 0⟩ with
  | .ok (s, e) => some (s.offset, strip e)
  | .error _ => none

/-- Run the expression parser on an input and return the final offset and
the rendered (`Display`) form of the result. -/
def parseRender (nl : Bool) (input : List Char) : Option (Nat × String) :=
  match expressionE exprFuel nl ⟨input, 0⟩ with
  | .ok (s, e) => some (s.offset, renderE e)
  | .error _ => none

/-! ## The incremental scanner (`ast/scanner.rs`) and the combinators of
`ast/mod.rs`

The scanner of `ast/scanner.rs` is a cursor into a shared growable buffer
fed by a shared character iterator.  The two shared cells are modelled as an
explicitly threaded `Store` (the materialized buffer and the not-yet-pulled
tail of the iterator); a scanner is then just its offset.  A parser maps an
offset and a store to a result and the (possibly grown) store — on failure
no offset is returned, which is exactly the Rust `Err(SpanOf<Error>)`: the
caller keeps its own cloned scanner while the shared buffer retains any
characters pulled during the failed attempt. -/
structure Store where
  buffer : List Char
  iter : List Char
  deriving Repr, DecidableEq

/-- The total number of characters the store will ever hold. -/
def Store.total (σ : Store) : Nat := σ.buffer.length + σ.iter.length

/-- The pull loop of `Scanner::next` and `string_eq_parser` in `ast/mod.rs`:
append characters from the iterator until the buffer holds at least `target`
characters or the iterator is drained. -/
def Store.pullTo (target : Nat) (σ : Store) : Store :=
  { buffer := σ.buffer ++ σ.iter.take (target - σ.buffer.length)
    iter := σ.iter.drop (target - σ.buffer.length) }

/-- `Scanner::next` of `ast/scanner.rs`: pull until the offset is inside the
buffer, then return the advanced offset, the character and its offset;
`none` only when the iterator is drained. -/
def scannerNext (off : Nat) (σ : Store) : Option (Nat × Char × Nat) × Store :=
  match (σ.pullTo (off + 1)).buffer.get? off with
  | some c => (some (off + 1, c, off), σ.pullTo (off + 1))
  | none => (none, σ.pullTo (off + 1))

/-- The parser abstraction of `ast/mod.rs` over the incremental scanner:
`FnOnce(Scanner) -> ParseResult<T>` with the shared cells threaded
explicitly. -/
def BParser (α : Type) : Type :=
  Nat → Store → (Except PError (Nat × α)) × Store

/-- `Parser::new_ok` (incremental flavor). -/
def bNewOk (v : α) : BParser α := fun off σ => (.ok (off, v), σ)

/-- `Parser::new_err` (incremental flavor). -/
def bNewErr (e : PError) : BParser α := fun _ σ => (.error e, σ)

/-- `Parser::new_err_current` (incremental flavor). -/
def bNewErrCurrent (c : ErrorCode) : BParser α :=
  fun off σ => (.error ⟨off, off, c⟩, σ)

/-- `Parser::map` (incremental flavor). -/
def bMap (p : BParser α) (f : α → β) : BParser β := fun off σ =>
  match p off σ with
  | (.ok (off1, a), σ1) => (.ok (off1, f a), σ1)
  | (.error e, σ1) => (.error e, σ1)

/-- `Parser::map_err` (incremental flavor). -/
def bMapErr (p : BParser α) (f : PError → PError) : BParser α := fun off σ =>
  match p off σ with
  | (.ok r, σ1) => (.ok r, σ1)
  | (.error e, σ1) => (.error (f e), σ1)

/-- `Parser::and_then` (incremental flavor): the continuation runs on the
advanced scanner, a failure of the first parser is the overall failure and
leaves the caller's offset untouched (only the store is returned). -/
def bAndThen (p : BParser α) (f : α → BParser β) : BParser β := fun off σ =>
  match p off σ with
  | (.ok (off1, a), σ1) => f a off1 σ1
  | (.error e, σ1) => (.error e, σ1)

/-- `Parser::or_else` (incremental flavor): on failure the alternative runs
at the original offset, over the possibly grown store. -/
def bOrElse (p : BParser α) (f : PError → BParser α) : BParser α :=
  fun off σ =>
    match p off σ with
    | (.error e, σ1) => f e off σ1
    | (.ok r, σ1) => (.ok r, σ1)

/-- `Parser::then_or` (incremental flavor). -/
def bThenOr (p : BParser α) (ok : α → BParser β) (err : PError → BParser β) :
    BParser β := fun off σ =>
  match p off σ with
  | (.ok (off1, a), σ1) => ok a off1 σ1
  | (.error e, σ1) => err e off σ1

/-- `Parser::optional` (incremental flavor). -/
def bOptional (p : BParser α) : BParser (Option α) := fun off σ =>
  match p off σ with
  | (.ok (off1, a), σ1) => (.ok (off1, some a), σ1)
  | (.error _, σ1) => (.ok (off, none), σ1)

/-- The loop of `Parser::fold` (incremental flavor), with fuel standing for
the unbounded `loop`; `none` models the divergence of the source on a step
that succeeds forever without advancing. -/
def bFoldGo (step : BParser β) (f : α → β → α) :
    Nat → α → Nat → Store → Option ((Nat × α) × Store)
  | 0, _, _, _ => none
  | fuel + 1, acc, off, σ =>
    match step off σ with
    | (.ok (off1, b), σ1) => bFoldGo step f fuel (f acc b) off1 σ1
    | (.error _, σ1) => some ((off, acc), σ1)

/-- `Parser::fold` of `ast/mod.rs` (incremental flavor): the receiver
produces the initial accumulator, then the step parser repeats until it
fails.  The fuel `total + 1` is sufficient whenever every successful step
advances the offset (which stays bounded by the total input length); the
`fuelOut` branch is the embedding's stand-in for the divergence of the
source's loop on a non-advancing step. -/
def bFold (self : BParser α) (step : BParser β) (f : α → β → α) :
    BParser α := fun off σ =>
  match self off σ with
  | (.ok (off1, a), σ1) =>
    match bFoldGo step f (σ1.total + 1) a off1 σ1 with
    | some r => (.ok r.1, r.2)
    | none => (.error ⟨off1, off1, .fuelOut⟩, σ1)
  | (.error e, σ1) => (.error e, σ1)

/-- `next_char_parser` of `ast/mod.rs`, built on `Scanner::next`. -/
def bNextCharP : BParser (SpanT Char) := fun off σ =>
  match scannerNext off σ with
  | (some (off1, c, at_), σ1) => (.ok (off1, ⟨at_, at_ + 1, c⟩), σ1)
  | (none, σ1) => (.error ⟨off, off, .Eof⟩, σ1)

/-- `string_eq_parser` of `ast/mod.rs`: eagerly pull enough characters to
cover the literal, test the buffer at the offset, and on failure keep the
grown buffer while reporting `ExpectedString` at the unchanged offset. -/
def bStringEqP (str : String) : BParser (SpanT String) := fun off σ =>
  if str.toList.isPrefixOf ((σ.pullTo (off + str.length)).buffer.drop off) then
    (.ok (off + str.length, ⟨off, off + str.length, str⟩),
     σ.pullTo (off + str.length))
  else
    (.error ⟨off, off, .ExpectedString str⟩, σ.pullTo (off + str.length))

/-- The syntax of parsers built from the combinators of `ast/mod.rs`: each
constructor is one combinator (or leaf parser); continuations are embedded
as functions into the syntax, mirroring the `FnOnce` closures of the
source.  Quantifying over this syntax expresses "every parser built from
the combinators". -/
inductive PSy : Type → Type 1 where
  | newOkS : α → PSy α
  | newErrS : PError → PSy α
  | newErrCurrentS : ErrorCode → PSy α
  | nextCharS : PSy (SpanT Char)
  | stringEqS : String → PSy (SpanT String)
  | mapS : PSy α → (α → β) → PSy β
  | mapErrS : PSy α → (PError → PError) → PSy α
  | andThenS : PSy α → (α → PSy β) → PSy β
  | orElseS : PSy α → (PError → PSy α) → PSy α
  | thenOrS : PSy α → (α → PSy β) → (PError → PSy β) → PSy β
  | optionalS : PSy α → PSy (Option α)
  | foldS : PSy α → PSy β → (α → β → α) → PSy α

/-- The interpretation of the combinator syntax into incremental-scanner
parsers. -/
def denote : PSy α → BParser α
  | .newOkS v => bNewOk v
  | .newErrS e => bNewErr e
  | .newErrCurrentS c => bNewErrCurrent c
  | .nextCharS => bNextCharP
  | .stringEqS str => bStringEqP str
  | .mapS p f => bMap (denote p) f
  | .mapErrS p f => bMapErr (denote p) f
  | .andThenS p f => bAndThen (denote p) fun a => denote (f a)
  | .orElseS p f => bOrElse (denote p) fun e => denote (f e)
  | .thenOrS p f g => bThenOr (denote p) (fun a => denote (f a))
      (fun e => denote (g e))
  | .optionalS p => bOptional (denote p)
  | .foldS self step f => bFold (denote self) (denote step) f

/-- The forward-progress property the spec imposes on `fold` steps: a
successful step strictly advances the offset, keeps it within the total
input, and preserves the total (the store only moves characters from the
iterator to the buffer). -/
def StepAdvances (step : BParser β) : Prop :=
  ∀ off σ off1 v σ1, step off σ = (.ok (off1, v), σ1) →
    off < off1 ∧ off1 ≤ σ1.total ∧ σ1.total = σ.total

/-! ## The operator/precedence enumeration of claim C2 -/

/-- The binary operator spellings with their precedence levels, exactly the
spec's table (§4.6, level 12 loosest to level 3 tightest, matching the
`l_binary_parser` tower of `ast/binary.rs`). -/
def opTable : List (String × Nat) :=
  [("or", 12), ("||", 12), ("and", 11), ("&&", 11), ("|", 10), ("^", 9),
   ("&", 8), ("==", 7), ("!=", 7), ("<=", 6), (">=", 6), ("<", 6), (">", 6),
   ("<<", 5), (">>", 5), ("+", 4), ("-", 4), ("*", 3), ("/", 3), ("%", 3)]

/-- Every binary operator spelling: the table above plus the assignment
spellings of `assign_parser`, one level looser (13). -/
def allOps : List (String × Nat) :=
  opTable ++ assignOpStrings.map (fun s => (s, 13))

/-- The input `a op₁ b op₂ c` with the literals `1`, `2`, `3` as operands. -/
def mk3 (o1 o2 : String) : List Char :=
  ('1' :: o1.toList) ++ ('2' :: o2.toList) ++ ['3']

/-- The `Display` form of an operator spelling (`&&` displays as `and`,
`||` as `or`, compound assignments as `op=`). -/
def opDisp (s : String) : String :=
  match Operator.tryFromChars s.toList with
  | some op => op.render
  | none => "?"

/-- The rendered form of `Binary(1, op₁, Binary(2, op₂, 3))`. -/
def rightShape (o1 o2 : String) : String :=
  "(1)" ++ opDisp o1 ++ "((2)" ++ opDisp o2 ++ "(3))"

/-- The rendered form of `Binary(Binary(1, op₁, 2), op₂, 3)`. -/
def leftShape (o1 o2 : String) : String :=
  "((1)" ++ opDisp o1 ++ "(2))" ++ opDisp o2 ++ "(3)"

/-- The claim-C2 check for one operator pair: when `op₁` has lower
precedence (a larger level) the parse of `1 op₁ 2 op₂ 3` must consume the
whole input and nest to the right; at equal precedence it must left-
associate, except at the assignment level (13) where it must right-
associate; pairs with `op₁` of higher precedence are outside the claim. -/
def checkPair (p q : String × Nat) : Bool :=
  let input := mk3 p.1 q.1
  if p.2 > q.2 then
    parseRender true input == some (input.length, rightShape p.1 q.1)
  else if p.2 == q.2 then
    if p.2 == 13 then
      parseRender true input == some (input.length, rightShape p.1 q.1)
    else
      parseRender true input == some (input.length, leftShape p.1 q.1)
  else true

/-- The claim-C2 check of one left operator against every right operator. -/
def checkRow (p : String × Nat) : Bool :=
  allOps.all fun q => checkPair p q

/-- The claim-C2 check over every ordered pair of operator spellings. -/
def checkAllPairs : Bool :=
  allOps.all checkRow

/-! ## Concrete inputs used by the claim theorems -/

/-- A `\u{…}` escape input built from hex digits (the braces written via
`Char.ofNat`). -/
def escInput (digits : List Char) : List Char :=
  '\\' :: 'u' :: Char.ofNat 123 :: (digits ++ [Char.ofNat 125])

/-- Shorthand for a radix-10 integer literal token. -/
def numT (n : Nat) : NumberToken := ⟨10, n, none⟩

/-- The scanner discipline of claim C9 for one incremental-flavor parser:
the shared buffer only ever grows by appending (the input buffer is a
prefix of the output buffer, whether the parse succeeds or fails), and a
successful parse returns an offset at least the input offset.  That a
failed parse leaves the caller's offset unchanged is structural in the
embedding, exactly as in the source: the `Err` result carries no scanner,
so the caller goes on using its own clone (see `bOrElse`, which resumes the
alternative at the original offset over the grown store). -/
def Disciplined (q : BParser α) : Prop :=
  ∀ off σ, σ.buffer <+: (q off σ).2.buffer ∧
    ∀ off2 v, (q off σ).1 = .ok (off2, v) → off ≤ off2

/-! ## Helper lemmas -/

/-- `or_else` cannot fail when its alternative cannot. -/
theorem orElse_total {p : Parser α} {f : PError → Parser α} {s : Scanner}
    (hf : ∀ e, ∃ r, f e s = .ok r) : ∃ r, (p.orElse f) s = .ok r := by
  unfold Parser.orElse
  cases hp : p s with
  | error e => exact hf e
  | ok r => exact ⟨r, rfl⟩

/-- The fold loop returns `some` only upon a failure of the step parser at
the final scanner. -/
theorem foldGo_some_step_fails {step : Parser β} {f : α → β → α} :
    ∀ fuel acc (s s2 : Scanner) acc2,
      Parser.foldGo step f fuel acc s = some (s2, acc2) →
      ∃ e, step s2 = .error e := by
  intro fuel
  induction fuel with
  | zero => intro acc s s2 acc2 h; simp [Parser.foldGo] at h
  | succ n ih =>
    intro acc s s2 acc2 h
    unfold Parser.foldGo at h
    cases hs : step s with
    | ok r =>
      rw [hs] at h
      exact ih _ _ _ _ h
    | error e =>
      rw [hs] at h
      simp at h
      exact ⟨e, h.1 ▸ hs⟩

/-- Inversion for `fold` success: the receiver succeeded and the loop
returned the final scanner and accumulator. -/
theorem fold_ok {self : Parser α} {step : Parser β} {f : α → β → α}
    {s s2 : Scanner} {acc2 : α}
    (h : (self.fold step f) s = .ok (s2, acc2)) :
    ∃ s1 a, self s = .ok (s1, a) ∧
      Parser.foldGo step f (s1.source.length + 1) a s1 = some (s2, acc2) := by
  unfold Parser.fold at h
  cases hs : self s with
  | error e => rw [hs] at h; exact absurd h (by simp)
  | ok r =>
    obtain ⟨s1, a⟩ := r
    rw [hs] at h
    simp only [] at h
    cases hg : Parser.foldGo step f (s1.source.length + 1) a s1 with
    | none => rw [hg] at h; exact absurd h (by simp)
    | some r2 =>
      obtain ⟨s2', acc2'⟩ := r2
      rw [hg] at h
      simp at h
      exact ⟨s1, a, rfl, by rw [hg, h.1, h.2]⟩

/-! ## Claim C1 — assignment left-hand sides reachable from
`expression_parser` -/

/-- C1, counterexample: the input `1=2` contains a top-level `=` whose left
side is the literal `1` (neither an identifier nor a property access), yet
the parser reachable from `expression_parser` (the `assign_parser` level of
`ast/binary.rs`) succeeds, producing `Binary(1, Assign, 2)` and consuming
the whole input — it does not fail with `CannotAssign`. -/
theorem c1_cannot_assign_counterexample :
    parseStrip true "1=2".toList =
      some (3, .bin (.num (numT 1)) (.assign none) (.num (numT 2))) := rfl

/-- C1, amended: `expression_parser` routes `=` through the `assign_parser`
level of `ast/binary.rs`, which treats `=` (and the compound assignments) as
a right-associative binary operator accepting any expression on the left;
an `=` whose left side is a literal, a prefix unary, an index or a call
parses successfully as a `Binary` node with an `Assign` operator, and no
`CannotAssign` diagnostic is involved (that diagnostic is produced only by
`assign_expression_parser` of `ast/assign.rs`, which is not reachable from
`expression_parser`). -/
theorem c1_assign_is_right_assoc_binary :
    parseStrip true "1=2".toList =
      some (3, .bin (.num (numT 1)) (.assign none) (.num (numT 2))) ∧
    parseStrip true "-1=2".toList =
      some (4, .bin (.pre .negate (.num (numT 1))) (.assign none)
        (.num (numT 2))) ∧
    parseStrip true "1[2]=3".toList =
      some (6, .bin (.idx (.num (numT 1)) (.num (numT 2))) (.assign none)
        (.num (numT 3))) ∧
    parseStrip true "1(2)=3".toList =
      some (6, .bin (.call (.num (numT 1)) [.num (numT 2)]) (.assign none)
        (.num (numT 3))) ∧
    parseStrip true "1=2=3".toList =
      some (5, .bin (.num (numT 1)) (.assign none)
        (.bin (.num (numT 2)) (.assign none) (.num (numT 3)))) :=
  ⟨rfl, rfl, rfl, rfl, rfl⟩

/-! ## Claim C3 — bracket contents and parsing modes -/

/-- C3, counterexample: a call argument list is *not* parsed in multi-line
mode — in inline mode (`skip_newline = false`) the input `1(2,\n3)` fails
the call postfix (the argument after the newline is unreachable and the
closing parenthesis is not found), so the parse stops after the literal `1`;
the very same input in multi-line mode consumes everything and produces the
call with both arguments.  Were the claim true, both parses would produce
the full call. -/
theorem c3_bracket_mode_counterexample :
    parseStrip false "1(2,\n3)".toList = some (1, .num (numT 1)) ∧
    parseStrip true "1(2,\n3)".toList =
      some (7, .call (.num (numT 1)) [.num (numT 2), .num (numT 3)]) :=
  ⟨rfl, rfl⟩

/-- C3, amended: grouping `( )` and array literals `[ ]` parse their
contents in multi-line mode regardless of the caller's mode (their closing
bracket too), and parsing after the closing bracket resumes in the caller's
mode; call argument lists, however, are parsed in the *caller's* mode, and
index contents are parsed in *inline* mode regardless of the caller's mode
(with the closing `]` in the caller's mode).  Witnessed by: a group and an
array with an inner newline parse fully in both modes; a newline after a
closed group ends an inline expression but continues a multi-line one; the
call `1(2,\n3)` is a full call only in multi-line mode; the index `1[\n2]`
fails even in multi-line mode while `1[2\n]` (newline before `]`) succeeds
exactly when the caller is in multi-line mode. -/
theorem c3_bracket_modes :
    parseStrip false "(1+\n2)".toList =
      some (6, .grp (.bin (.num (numT 1)) .add (.num (numT 2)))) ∧
    parseStrip true "(1+\n2)".toList =
      some (6, .grp (.bin (.num (numT 1)) .add (.num (numT 2)))) ∧
    parseStrip false "[1,\n2]".toList =
      some (6, .arr [.num (numT 1), .num (numT 2)]) ∧
    parseStrip true "[1,\n2]".toList =
      some (6, .arr [.num (numT 1), .num (numT 2)]) ∧
    parseStrip false "(1)\n+2".toList = some (3, .grp (.num (numT 1))) ∧
    parseStrip true "(1)\n+2".toList =
      some (6, .bin (.grp (.num (numT 1))) .add (.num (numT 2))) ∧
    parseStrip true "1(2,\n3)".toList =
      some (7, .call (.num (numT 1)) [.num (numT 2), .num (numT 3)]) ∧
    parseStrip false "1(2,\n3)".toList = some (1, .num (numT 1)) ∧
    parseStrip true "1[\n2]".toList = some (1, .num (numT 1)) ∧
    parseStrip true "1[2\n]".toList =
      some (5, .idx (.num (numT 1)) (.num (numT 2))) ∧
    parseStrip false "1[2\n]".toList = some (1, .num (numT 1)) :=
  ⟨rfl, rfl, rfl, rfl, rfl, rfl, rfl, rfl, rfl, rfl, rfl⟩

/-! ## Claim C4 — exponent parsing diagnostics -/

/-- C4, counterexample: on `1e` the exponent marker is present with no
digits following, yet `exponent_parser` does not emit `MissingExponent`: its
final `or_else` swallows the failure of the whole marker chain and returns
the plain decimal `1` (no exponent), consuming only the `1`. -/
theorem c4_missing_exponent_counterexample :
    exponentP 10 ⟨"1e".toList, 0⟩ =
      .ok (⟨"1e".toList, 1⟩, ⟨0, 1, numT 1⟩) := rfl

/-- C4, amended: the parsed exponent (with its optional sign) is indeed
added to the exponent contributed by the fractional part (witnessed at
`3.14e-2` giving exponent `-4` and, in radix 16, `3.fp-f` giving `-16`);
the `MissingExponent` and `ExponentOverflow` diagnostics are constructed
inside the marker chain, but the final `or_else` of `exponent_parser`
swallows every failure of that chain, so whenever the decimal part parses,
`exponent_parser` succeeds — on a missing exponent digit (`1e`) and on an
`i32` overflow (`1e3000000000`) alike it backtracks and returns the decimal
unchanged, and neither diagnostic ever escapes to the caller. -/
theorem c4_exponent_behavior :
    (∀ (r : Nat) (s : Scanner) (res : Scanner × SpanT NumberToken),
      decimalP r s = .ok res → ∃ res2, exponentP r s = .ok res2) ∧
    exponentP 10 ⟨"3.14e-2".toList, 0⟩ =
      .ok (⟨"3.14e-2".toList, 7⟩, ⟨0, 7, ⟨10, 314, some (-4)⟩⟩) ∧
    exponentP 16 ⟨"3.fp-f".toList, 0⟩ =
      .ok (⟨"3.fp-f".toList, 6⟩, ⟨0, 6, ⟨16, 63, some (-16)⟩⟩) ∧
    exponentP 10 ⟨"1e".toList, 0⟩ =
      .ok (⟨"1e".toList, 1⟩, ⟨0, 1, numT 1⟩) ∧
    exponentP 10 ⟨"1e3000000000".toList, 0⟩ =
      .ok (⟨"1e3000000000".toList, 1⟩, ⟨0, 1, numT 1⟩) := by
  refine ⟨?_, rfl, rfl, rfl, rfl⟩
  intro r s res h
  show ∃ res2, Parser.andThen (decimalP r) _ s = .ok res2
  unfold Parser.andThen
  rw [h]
  exact orElse_total fun e => ⟨(res.1, res.2), rfl⟩

/-- C4, witness for the universal part of the amended claim, at the
concrete decimal `1`. -/
theorem c4_exponent_behavior_witness :
    ∃ res2, exponentP 10 ⟨"1".toList, 0⟩ = .ok res2 :=
  c4_exponent_behavior.1 10 ⟨"1".toList, 0⟩
    (⟨"1".toList, 1⟩, ⟨0, 1, numT 1⟩) rfl

/-! ## Claim C5 — escape diagnostics observed by the caller -/

/-- C5, counterexample: on the escape `\q` (an unrecognized escape letter)
the diagnostic observed by the caller of `escape_char_parser` is
`MissingEscape`, not `InvalidEscape`: the final `map_err` of the parser
rewrites every diagnostic of the escape chain to `MissingEscape`. -/
theorem c5_escape_diagnostics_counterexample :
    escapeCharP ⟨"\\q".toList, 0⟩ = .error ⟨0, 2, .MissingEscape⟩ := rfl

/-- C5, amended: the escape dispatch itself (the chain before the final
`map_err`) emits `InvalidEscape` for an unrecognized escape letter,
`UnicodeOverflow` only when the `\u{…}` value does not fit in a `u32`, and
`InvalidUnicode` both for surrogate-range values and for values above
`0x10FFFF` that fit in a `u32`; but the final `map_err` of
`escape_char_parser` rewrites every failure to `MissingEscape`, so that is
the only diagnostic its caller can observe.  (Recognized escapes are
unaffected: `\u{5B57}` decodes to `字` through both.) -/
theorem c5_escape_diagnostics :
    escapeCharBody ⟨"\\q".toList, 0⟩ = .error ⟨0, 2, .InvalidEscape⟩ ∧
    escapeCharBody ⟨escInput "D800".toList, 0⟩ =
      .error ⟨2, 8, .InvalidUnicode⟩ ∧
    escapeCharBody ⟨escInput "110000".toList, 0⟩ =
      .error ⟨2, 10, .InvalidUnicode⟩ ∧
    escapeCharBody ⟨escInput "FFFFFFFFF".toList, 0⟩ =
      .error ⟨2, 13, .UnicodeOverflow⟩ ∧
    escapeCharP ⟨"\\q".toList, 0⟩ = .error ⟨0, 2, .MissingEscape⟩ ∧
    escapeCharP ⟨escInput "D800".toList, 0⟩ =
      .error ⟨2, 8, .MissingEscape⟩ ∧
    escapeCharP ⟨escInput "110000".toList, 0⟩ =
      .error ⟨2, 10, .MissingEscape⟩ ∧
    escapeCharP ⟨escInput "FFFFFFFFF".toList, 0⟩ =
      .error ⟨2, 13, .MissingEscape⟩ ∧
    escapeCharBody ⟨escInput "5B57".toList, 0⟩ =
      .ok (⟨escInput "5B57".toList, 8⟩, ⟨2, 8, '字'⟩) ∧
    escapeCharP ⟨escInput "5B57".toList, 0⟩ =
      .ok (⟨escInput "5B57".toList, 8⟩, ⟨2, 8, '字'⟩) :=
  ⟨rfl, rfl, rfl, rfl, rfl, rfl, rfl, rfl, rfl, rfl⟩

/-! ## Claim C6 — decimal decoding and digit separators -/

/-- C6: the code evaluated at the failing input.  `decimal_parser` computes
`frac_len` as the *span length* of the fractional part minus one (the dot),
so a `_` digit separator in the fractional digits is counted as if it were
a digit: `3.1_4` decodes to `integer = 3014`, `exponent = -3` (the value
3.014) instead of the claimed `integer = 314`, `exponent = -2` (the value
3.14).  Without separators the claimed identity holds: `3.14` gives
`314`/`-2`, `3.` gives exponent `-0`, and `3` gives no exponent. -/
theorem c6_fractional_separator_bug :
    decimalP 10 ⟨"3.1_4".toList, 0⟩ =
      .ok (⟨"3.1_4".toList, 5⟩, ⟨0, 5, ⟨10, 3014, some (-3)⟩⟩) ∧
    decimalP 10 ⟨"3.14".toList, 0⟩ =
      .ok (⟨"3.14".toList, 4⟩, ⟨0, 4, ⟨10, 314, some (-2)⟩⟩) ∧
    decimalP 10 ⟨"3.".toList, 0⟩ =
      .ok (⟨"3.".toList, 2⟩, ⟨0, 2, ⟨10, 3, some 0⟩⟩) ∧
    decimalP 10 ⟨"3".toList, 0⟩ =
      .ok (⟨"3".toList, 1⟩, ⟨0, 1, numT 3⟩) :=
  ⟨rfl, rfl, rfl, rfl⟩

/-! ## Claim C2 — precedence and associativity -/

/-- C2, row 1: the operator spelling `or` against every second operator. -/
theorem c2_row_01 : checkRow ("or", 12) = true := rfl

/-- C2, row 2: the operator spelling `||` against every second operator. -/
theorem c2_row_02 : checkRow ("||", 12) = true := rfl

/-- C2, row 3: the operator spelling `and` against every second operator. -/
theorem c2_row_03 : checkRow ("and", 11) = true := rfl

/-- C2, row 4: the operator spelling `&&` against every second operator. -/
theorem c2_row_04 : checkRow ("&&", 11) = true := rfl

/-- C2, row 5: the operator spelling `|` against every second operator. -/
theorem c2_row_05 : checkRow ("|", 10) = true := rfl

/-- C2, row 6: the operator spelling `^` against every second operator. -/
theorem c2_row_06 : checkRow ("^", 9) = true := rfl

/-- C2, row 7: the operator spelling `&` against every second operator. -/
theorem c2_row_07 : checkRow ("&", 8) = true := rfl

/-- C2, row 8: the operator spelling `==` against every second operator. -/
theorem c2_row_08 : checkRow ("==", 7) = true := rfl

/-- C2, row 9: the operator spelling `!=` against every second operator. -/
theorem c2_row_09 : checkRow ("!=", 7) = true := rfl

/-- C2, row 10: the operator spelling `<=` against every second operator. -/
theorem c2_row_10 : checkRow ("<=", 6) = true := rfl

/-- C2, row 11: the operator spelling `>=` against every second operator. -/
theorem c2_row_11 : checkRow (">=", 6) = true := rfl

/-- C2, row 12: the operator spelling `<` against every second operator. -/
theorem c2_row_12 : checkRow ("<", 6) = true := rfl

/-- C2, row 13: the operator spelling `>` against every second operator. -/
theorem c2_row_13 : checkRow (">", 6) = true := rfl

/-- C2, row 14: the operator spelling `<<` against every second operator. -/
theorem c2_row_14 : checkRow ("<<", 5) = true := rfl

/-- C2, row 15: the operator spelling `>>` against every second operator. -/
theorem c2_row_15 : checkRow (">>", 5) = true := rfl

/-- C2, row 16: the operator spelling `+` against every second operator. -/
theorem c2_row_16 : checkRow ("+", 4) = true := rfl

/-- C2, row 17: the operator spelling `-` against every second operator. -/
theorem c2_row_17 : checkRow ("-", 4) = true := rfl

/-- C2, row 18: the operator spelling `*` against every second operator. -/
theorem c2_row_18 : checkRow ("*", 3) = true := rfl

/-- C2, row 19: the operator spelling `/` against every second operator. -/
theorem c2_row_19 : checkRow ("/", 3) = true := rfl

/-- C2, row 20: the operator spelling `%` against every second operator. -/
theorem c2_row_20 : checkRow ("%", 3) = true := rfl

/-- C2, row 21: the operator spelling `+=` against every second operator. -/
theorem c2_row_21 : checkRow ("+=", 13) = true := rfl

/-- C2, row 22: the operator spelling `-=` against every second operator. -/
theorem c2_row_22 : checkRow ("-=", 13) = true := rfl

/-- C2, row 23: the operator spelling `*=` against every second operator. -/
theorem c2_row_23 : checkRow ("*=", 13) = true := rfl

/-- C2, row 24: the operator spelling `/=` against every second operator. -/
theorem c2_row_24 : checkRow ("/=", 13) = true := rfl

/-- C2, row 25: the operator spelling `%=` against every second operator. -/
theorem c2_row_25 : checkRow ("%=", 13) = true := rfl

/-- C2, row 26: the operator spelling `<<=` against every second operator. -/
theorem c2_row_26 : checkRow ("<<=", 13) = true := rfl

/-- C2, row 27: the operator spelling `>>=` against every second operator. -/
theorem c2_row_27 : checkRow (">>=", 13) = true := rfl

/-- C2, row 28: the operator spelling `&=` against every second operator. -/
theorem c2_row_28 : checkRow ("&=", 13) = true := rfl

/-- C2, row 29: the operator spelling `^=` against every second operator. -/
theorem c2_row_29 : checkRow ("^=", 13) = true := rfl

/-- C2, row 30: the operator spelling `|=` against every second operator. -/
theorem c2_row_30 : checkRow ("|=", 13) = true := rfl

/-- C2, row 31: the operator spelling `&&=` against every second operator. -/
theorem c2_row_31 : checkRow ("&&=", 13) = true := rfl

/-- C2, row 32: the operator spelling `||=` against every second operator. -/
theorem c2_row_32 : checkRow ("||=", 13) = true := rfl

/-- C2, row 33: the operator spelling `=` against every second operator. -/
theorem c2_row_33 : checkRow ("=", 13) = true := rfl

set_option maxHeartbeats 2000000 in
/-- C2: for every ordered pair of binary operator spellings (the twenty of
the precedence table and the thirteen assignment spellings), parsing
`1 op₁ 2 op₂ 3` yields `Binary(1, op₁, Binary(2, op₂, 3))` when `op₁` has
lower precedence than `op₂`, and at equal precedence the result is
left-associated — `Binary(Binary(1, op₁, 2), op₂, 3)` — except at the
assignment level, which right-associates (so `1 = 2 = 3` parses as
`1 = (2 = 3)`); every such parse consumes the whole input.  The check
compares the parser's output in the `Display` form of the source
(`(left)op(right)`), assembled row by row from the lemmas above. -/
theorem c2_precedence_associativity : checkAllPairs = true := by
  show (allOps.all checkRow) = true
  simp only [allOps, opTable, assignOpStrings, List.map_cons, List.map_nil,
    List.cons_append, List.nil_append, List.all_cons, List.all_nil,
    Bool.and_eq_true, Bool.and_true]
  exact ⟨c2_row_01, c2_row_02, c2_row_03, c2_row_04, c2_row_05, c2_row_06, c2_row_07, c2_row_08, c2_row_09, c2_row_10, c2_row_11, c2_row_12, c2_row_13, c2_row_14, c2_row_15, c2_row_16, c2_row_17, c2_row_18, c2_row_19, c2_row_20, c2_row_21, c2_row_22, c2_row_23, c2_row_24, c2_row_25, c2_row_26, c2_row_27, c2_row_28, c2_row_29, c2_row_30, c2_row_31, c2_row_32, c2_row_33⟩

/-! ## Claim C8 — idempotence of `skip_parser` -/

/-- A failing receiver makes `fold` fail with the receiver's diagnostic. -/
theorem fold_receiver_error {self : Parser α} {step : Parser β}
    {f : α → β → α} {s : Scanner} {e : PError} (h : self s = .error e) :
    (self.fold step f) s = .error e := by
  unfold Parser.fold
  rw [h]

/-- `or_else` on a failing first parser runs the alternative on the original
scanner. -/
theorem orElse_error {p : Parser α} {f : PError → Parser α} {s : Scanner}
    {e : PError} (h : p s = .error e) : (p.orElse f) s = f e s := by
  unfold Parser.orElse
  rw [h]

/-- `or_else` on a succeeding first parser returns its result. -/
theorem orElse_ok {p : Parser α} {f : PError → Parser α} {s : Scanner}
    {r : Scanner × α} (h : p s = .ok r) : (p.orElse f) s = .ok r := by
  unfold Parser.orElse
  rw [h]

/-- C8: skip is idempotent — whenever `skip_parser` succeeds, immediately
re-running it on the resulting scanner returns that same scanner (the
second run consumes nothing).  The proof follows the three ways the first
run can stop: the very first whitespace/comment alternative failed (the
skip consumed nothing and deterministically does so again), the fold loop
stopped because the alternative failed at the final scanner (so the second
run's first alternative fails there and the `or_else` fallback returns the
scanner unchanged), or the loop's fuel ran out (an embedding artifact, in
which case the skip returned its input scanner and determinism applies
again). -/
theorem c8_skip_idempotent : ∀ (s s2 : Scanner) (v : SpanT Unit),
    skipP s = .ok (s2, v) → ∃ v2, skipP s2 = .ok (s2, v2) := by
  intro s s2 v h
  have hdef : skipP s = .ok (s2, v) := h
  unfold skipP at h
  cases hone : skipOneOf s with
  | error e =>
    rw [orElse_error (fold_receiver_error hone)] at h
    have hs2 : s = s2 := by
      simpa [Parser.newOk] using congrArg
        (fun r : ParseResult (SpanT Unit) =>
          match r with
          | .ok (sc, _) => sc
          | .error _ => s) h
    subst hs2
    exact ⟨v, hdef⟩
  | ok r =>
    obtain ⟨s1, a⟩ := r
    cases hg : Parser.foldGo skipOneOf
        (fun a b => SpanT.new a.start b.stop ())
        (s1.source.length + 1) a s1 with
    | some r2 =>
      obtain ⟨s2', acc⟩ := r2
      have hfold : (skipOneOf.fold skipOneOf
          fun a b => SpanT.new a.start b.stop ()) s = .ok (s2', acc) := by
        unfold Parser.fold
        rw [hone]
        dsimp only
        rw [hg]
      rw [orElse_ok hfold] at h
      have hs2 : s2' = s2 := by
        simpa using congrArg
          (fun r : ParseResult (SpanT Unit) =>
            match r with
            | .ok (sc, _) => sc
            | .error _ => s2') h
      subst hs2
      obtain ⟨e2, he2⟩ := foldGo_some_step_fails _ _ _ _ _ hg
      refine ⟨SpanT.fromLen e2.start 0 (), ?_⟩
      unfold skipP
      rw [orElse_error (fold_receiver_error he2)]
      rfl
    | none =>
      have hfold : (skipOneOf.fold skipOneOf
          fun a b => SpanT.new a.start b.stop ()) s =
          .error ⟨s1.offset, s1.offset, .fuelOut⟩ := by
        unfold Parser.fold
        rw [hone]
        dsimp only
        rw [hg]
      rw [orElse_error hfold] at h
      have hs2 : s = s2 := by
        simpa [Parser.newOk] using congrArg
          (fun r : ParseResult (SpanT Unit) =>
            match r with
            | .ok (sc, _) => sc
            | .error _ => s) h
      subst hs2
      exact ⟨v, hdef⟩

/-- C8, witness: a concrete run — skipping the leading whitespace and block
comment of `/* c */ 1` stops at offset 8, and re-running the skip there
consumes nothing. -/
theorem c8_skip_idempotent_witness :
    ∃ v2, skipP ⟨"/* c */ 1".toList, 8⟩ =
      .ok (⟨"/* c */ 1".toList, 8⟩, v2) := by
  refine c8_skip_idempotent ⟨"/* c */ 1".toList, 0⟩ _ ⟨0, 8, ()⟩ ?_
  rfl

/-! ## Claim C10 — radix prefixes with no valid digit -/

/-- A fold loop whose step fails immediately exits at once with the initial
accumulator, for any positive fuel. -/
theorem foldGo_first_fails {step : Parser β} {f : α → β → α} {s : Scanner}
    {e : PError} (h : step s = .error e) (fuel : Nat) (acc : α) :
    Parser.foldGo step f (fuel + 1) acc s = some (s, acc) := by
  unfold Parser.foldGo
  rw [h]

/-- The number-parser backtracking behind claim C10, with the properties of
the prefix character abstracted: if `0` is followed by a prefix character
`p` that is not a radix-10 digit, not `_`, `.`, `e` or `E`, the radix prefix
parses as radix `r`, and the next character `c` is not a digit of radix `r`,
then the prefixed alternative fails at its first required digit, the parser
backtracks, and the whole literal is the radix-10 number `0`, consuming only
the initial `0`. -/
theorem numberP_invalid_radix_digit (p : Char) (r : Nat) (c : Char)
    (rest2 : List Char)
    (hd0 : digitVal? 10 p = none)
    (hpu : ¬p = '_') (hpd : ¬p = '.') (hpe : ¬p = 'e') (hpE : ¬p = 'E')
    (hradix : radixP ⟨'0' :: p :: c :: rest2, 0⟩ =
      .ok (⟨'0' :: p :: c :: rest2, 2⟩, ⟨0, 2, r⟩))
    (hc : digitVal? r c = none) :
    numberP ⟨'0' :: p :: c :: rest2, 0⟩ =
      .ok (⟨'0' :: p :: c :: rest2, 1⟩, ⟨0, 1, numT 0⟩) := by
  have hdig1 : digitP 10 ⟨'0' :: p :: c :: rest2, 1⟩ =
      .error ⟨1, 2, .CharNotDigit⟩ := by
    simp [digitP, nextCharP, Parser.andThen, Parser.newErr, Parser.newOk,
      SpanT.map, hd0]
  have hstep1 : ((digitP 10).orElse fun _ =>
      (charEqP '_').andThen fun _ => digitP 10)
      ⟨'0' :: p :: c :: rest2, 1⟩ = .error ⟨1, 2, .ExpectedChar '_'⟩ := by
    simp [Parser.orElse, hdig1, charEqP, nextCharP, Parser.andThen,
      Parser.newErr, Parser.newOk, SpanT.map, hpu]
  have hdig0 : digitP 10 ⟨'0' :: p :: c :: rest2, 0⟩ =
      .ok (⟨'0' :: p :: c :: rest2, 1⟩, ⟨0, 1, (0 : Nat)⟩) := rfl
  have hint0 : integerP 10 ⟨'0' :: p :: c :: rest2, 0⟩ =
      .ok (⟨'0' :: p :: c :: rest2, 1⟩, ⟨0, 1, (0 : Nat)⟩) := by
    unfold integerP Parser.fold
    simp only [Parser.map, Parser.mapErr, hdig0]
    rw [foldGo_first_fails hstep1]
  have hdot : charEqP '.' ⟨'0' :: p :: c :: rest2, 1⟩ =
      .error ⟨1, 2, .ExpectedChar '.'⟩ := by
    simp [charEqP, nextCharP, Parser.andThen, Parser.newOk, Parser.newErr,
      SpanT.map, hpd]
  have hdec0 : decimalP 10 ⟨'0' :: p :: c :: rest2, 0⟩ =
      .ok (⟨'0' :: p :: c :: rest2, 1⟩, ⟨0, 1, numT 0⟩) := by
    unfold decimalP
    simp [Parser.andThen, hint0, Parser.orElse, Parser.map, hdot,
      Parser.newOk, SpanT.map, numT]
  have hexp0 : exponentP 10 ⟨'0' :: p :: c :: rest2, 0⟩ =
      .ok (⟨'0' :: p :: c :: rest2, 1⟩, ⟨0, 1, numT 0⟩) := by
    unfold exponentP
    simp [Parser.andThen, hdec0, Parser.map, Parser.orElse, Parser.newOk,
      charMatchP, nextCharP, Parser.newErr, SpanT.map, hpe, hpE]
  have hdig2 : digitP r ⟨'0' :: p :: c :: rest2, 2⟩ =
      .error ⟨2, 3, .CharNotDigit⟩ := by
    simp [digitP, nextCharP, Parser.andThen, Parser.newErr, Parser.newOk,
      SpanT.map, hc]
  have hint2 : integerP r ⟨'0' :: p :: c :: rest2, 2⟩ =
      .error ⟨2, 3, .ExpectedInt⟩ := by
    unfold integerP
    apply fold_receiver_error
    simp [Parser.map, Parser.mapErr, hdig2, SpanT.map]
  have hdec2 : decimalP r ⟨'0' :: p :: c :: rest2, 2⟩ =
      .error ⟨2, 3, .ExpectedInt⟩ := by
    unfold decimalP
    simp [Parser.andThen, hint2]
  have hexp2 : exponentP r ⟨'0' :: p :: c :: rest2, 2⟩ =
      .error ⟨2, 3, .ExpectedInt⟩ := by
    unfold exponentP
    simp [Parser.andThen, hdec2]
  unfold numberP
  simp [Parser.orElse, Parser.andThen, hradix, Parser.map, hexp2, hexp0]

/-- C10: for every input starting with a radix prefix `0b`, `0o` or `0x`
that is not followed by a digit valid in that radix (including the bare
prefix at end of input), `number_parser` does not fail: the prefixed
alternative backtracks and the literal parses as the radix-10 number zero
(`integer = 0`, `radix = 10`, `exponent = none`), consuming only the
initial `0`. -/
theorem c10_radix_prefix_backtracks :
    ∀ (p : Char) (r : Nat) (rest : List Char),
      ((p = 'b' ∧ r = 2) ∨ (p = 'o' ∧ r = 8) ∨ (p = 'x' ∧ r = 16)) →
      (∀ c, rest.head? = some c → digitVal? r c = none) →
      numberP ⟨'0' :: p :: rest, 0⟩ =
        .ok (⟨'0' :: p :: rest, 1⟩, ⟨0, 1, numT 0⟩) := by
  intro p r rest hpre hdig
  obtain ⟨hp, hr⟩ | ⟨hp, hr⟩ | ⟨hp, hr⟩ := hpre <;> subst hp <;> subst hr
  all_goals
    cases rest with
    | nil => rfl
    | cons c rest2 =>
      exact numberP_invalid_radix_digit _ _ c rest2 (by decide) (by decide)
        (by decide) (by decide) (by decide) rfl (hdig c rfl)

/-- C10, witness: the bare input `0x` parses as the radix-10 number zero,
consuming only the `0`. -/
theorem c10_radix_prefix_backtracks_witness :
    numberP ⟨['0', 'x'], 0⟩ = .ok (⟨['0', 'x'], 1⟩, ⟨0, 1, numT 0⟩) :=
  c10_radix_prefix_backtracks 'x' 16 []
    (Or.inr (Or.inr ⟨rfl, rfl⟩))
    (fun c hc => by simp at hc)

/-! ## Claim C9 — the scanner discipline of every combinator-built parser -/

/-- Pulling characters from the iterator only appends to the buffer. -/
theorem pullTo_grows (t : Nat) (σ : Store) :
    σ.buffer <+: (σ.pullTo t).buffer :=
  ⟨σ.iter.take (t - σ.buffer.length), rfl⟩

/-- The leaf parsers are disciplined. -/
theorem disciplined_bNewOk (v : α) : Disciplined (bNewOk v) := by
  intro off σ
  refine ⟨List.prefix_refl _, ?_⟩
  intro off2 v2 h
  simp [bNewOk] at h
  omega

/-- `new_err` is disciplined (it touches nothing). -/
theorem disciplined_bNewErr (e : PError) :
    Disciplined (bNewErr (α := α) e) := by
  intro off σ
  refine ⟨List.prefix_refl _, ?_⟩
  intro off2 v2 h
  simp [bNewErr] at h

/-- `new_err_current` is disciplined. -/
theorem disciplined_bNewErrCurrent (c : ErrorCode) :
    Disciplined (bNewErrCurrent (α := α) c) := by
  intro off σ
  refine ⟨List.prefix_refl _, ?_⟩
  intro off2 v2 h
  simp [bNewErrCurrent] at h


/-- `next_char_parser` is disciplined: it pulls at most one character into
the buffer and, on success, advances the offset by one. -/
theorem disciplined_bNextCharP : Disciplined bNextCharP := by
  intro off σ
  unfold bNextCharP scannerNext
  cases hg : (σ.pullTo (off + 1)).buffer.get? off with
  | some c =>
    constructor
    · simpa using pullTo_grows (off + 1) σ
    · intro off2 v h
      simp at h
      omega
  | none =>
    constructor
    · simpa using pullTo_grows (off + 1) σ
    · intro off2 v h
      simp at h

/-- `string_eq_parser` is disciplined: it pulls at most the literal's length
into the buffer and, on success, advances the offset by that length. -/
theorem disciplined_bStringEqP (str : String) :
    Disciplined (bStringEqP str) := by
  intro off σ
  unfold bStringEqP
  by_cases hp :
      str.toList.isPrefixOf ((σ.pullTo (off + str.length)).buffer.drop off)
  · rw [if_pos hp]
    exact ⟨pullTo_grows (off + str.length) σ, by
      intro off2 v h
      simp at h
      omega⟩
  · rw [if_neg hp]
    exact ⟨pullTo_grows (off + str.length) σ, by intro off2 v h; simp at h⟩

/-- `map` preserves the discipline. -/
theorem disciplined_bMap {p : BParser α} (hp : Disciplined p) (f : α → β) :
    Disciplined (bMap p f) := by
  intro off σ
  obtain ⟨hpre, hmono⟩ := hp off σ
  unfold bMap
  cases hr : p off σ with
  | mk res σ1 =>
    rw [hr] at hpre hmono
    cases res with
    | ok r =>
      exact ⟨hpre, by
        intro off2 v h
        simp at h
        exact h.1 ▸ hmono r.1 r.2 rfl⟩
    | error e =>
      exact ⟨hpre, by intro off2 v h; simp at h⟩

/-- `map_err` preserves the discipline. -/
theorem disciplined_bMapErr {p : BParser α} (hp : Disciplined p)
    (f : PError → PError) : Disciplined (bMapErr p f) := by
  intro off σ
  obtain ⟨hpre, hmono⟩ := hp off σ
  unfold bMapErr
  cases hr : p off σ with
  | mk res σ1 =>
    rw [hr] at hpre hmono
    cases res with
    | ok r =>
      exact ⟨hpre, by
        intro off2 v h
        simp at h
        subst h
        exact hmono off2 v rfl⟩
    | error e =>
      exact ⟨hpre, by intro off2 v h; simp at h⟩

/-- `and_then` preserves the discipline. -/
theorem disciplined_bAndThen {p : BParser α} {f : α → BParser β}
    (hp : Disciplined p) (hf : ∀ a, Disciplined (f a)) :
    Disciplined (bAndThen p f) := by
  intro off σ
  obtain ⟨hpre, hmono⟩ := hp off σ
  unfold bAndThen
  cases hr : p off σ with
  | mk res σ1 =>
    rw [hr] at hpre hmono
    cases res with
    | ok r =>
      obtain ⟨off1, a⟩ := r
      obtain ⟨hpre2, hmono2⟩ := hf a off1 σ1
      exact ⟨hpre.trans hpre2, fun off2 v h =>
        (hmono off1 a rfl).trans (hmono2 off2 v h)⟩
    | error e =>
      exact ⟨hpre, by intro off2 v h; simp at h⟩

/-- `or_else` preserves the discipline (the alternative resumes at the
original offset over the grown store). -/
theorem disciplined_bOrElse {p : BParser α} {f : PError → BParser α}
    (hp : Disciplined p) (hf : ∀ e, Disciplined (f e)) :
    Disciplined (bOrElse p f) := by
  intro off σ
  obtain ⟨hpre, hmono⟩ := hp off σ
  unfold bOrElse
  cases hr : p off σ with
  | mk res σ1 =>
    rw [hr] at hpre hmono
    cases res with
    | ok r =>
      exact ⟨hpre, by
        intro off2 v h
        simp at h
        subst h
        exact hmono off2 v rfl⟩
    | error e =>
      obtain ⟨hpre2, hmono2⟩ := hf e off σ1
      exact ⟨hpre.trans hpre2, hmono2⟩

/-- `then_or` preserves the discipline. -/
theorem disciplined_bThenOr {p : BParser α} {f : α → BParser β}
    {g : PError → BParser β} (hp : Disciplined p)
    (hf : ∀ a, Disciplined (f a)) (hg : ∀ e, Disciplined (g e)) :
    Disciplined (bThenOr p f g) := by
  intro off σ
  obtain ⟨hpre, hmono⟩ := hp off σ
  unfold bThenOr
  cases hr : p off σ with
  | mk res σ1 =>
    rw [hr] at hpre hmono
    cases res with
    | ok r =>
      obtain ⟨off1, a⟩ := r
      obtain ⟨hpre2, hmono2⟩ := hf a off1 σ1
      exact ⟨hpre.trans hpre2, fun off2 v h =>
        (hmono off1 a rfl).trans (hmono2 off2 v h)⟩
    | error e =>
      obtain ⟨hpre2, hmono2⟩ := hg e off σ1
      exact ⟨hpre.trans hpre2, hmono2⟩

/-- `optional` preserves the discipline. -/
theorem disciplined_bOptional {p : BParser α} (hp : Disciplined p) :
    Disciplined (bOptional p) := by
  intro off σ
  obtain ⟨hpre, hmono⟩ := hp off σ
  unfold bOptional
  cases hr : p off σ with
  | mk res σ1 =>
    rw [hr] at hpre hmono
    cases res with
    | ok r =>
      exact ⟨hpre, by
        intro off2 v h
        simp at h
        exact h.1 ▸ hmono r.1 r.2 rfl⟩
    | error e =>
      exact ⟨hpre, by
        intro off2 v h
        simp at h
        omega⟩

/-- If the fold loop returns, the buffer has only grown and the offset has
not moved backwards. -/
theorem bFoldGo_some {step : BParser β} {f : α → β → α}
    (hstep : Disciplined step) :
    ∀ (fuel : Nat) (acc : α) (off : Nat) (σ : Store) (off2 : Nat)
      (acc2 : α) (σ2 : Store),
      bFoldGo step f fuel acc off σ = some ((off2, acc2), σ2) →
      σ.buffer <+: σ2.buffer ∧ off ≤ off2 := by
  intro fuel
  induction fuel with
  | zero =>
    intro acc off σ off2 acc2 σ2 h
    simp [bFoldGo] at h
  | succ n ih =>
    intro acc off σ off2 acc2 σ2 h
    obtain ⟨hpre, hmono⟩ := hstep off σ
    unfold bFoldGo at h
    cases hr : step off σ with
    | mk res σ1 =>
      rw [hr] at h hpre hmono
      cases res with
      | ok r =>
        obtain ⟨off1, b⟩ := r
        obtain ⟨h2pre, h2mono⟩ := ih (f acc b) off1 σ1 off2 acc2 σ2 h
        exact ⟨hpre.trans h2pre, (hmono off1 b rfl).trans h2mono⟩
      | error e =>
        simp at h
        obtain ⟨⟨h1, h2⟩, h3⟩ := h
        subst h1
        subst h3
        exact ⟨hpre, le_refl _⟩

/-- `fold` preserves the discipline. -/
theorem disciplined_bFold {self : BParser α} {step : BParser β}
    {f : α → β → α} (hself : Disciplined self) (hstep : Disciplined step) :
    Disciplined (bFold self step f) := by
  intro off σ
  obtain ⟨hpre, hmono⟩ := hself off σ
  unfold bFold
  cases hr : self off σ with
  | mk res σ1 =>
    rw [hr] at hpre hmono
    cases res with
    | ok r =>
      obtain ⟨off1, a⟩ := r
      dsimp only
      cases hg : bFoldGo step f (σ1.total + 1) a off1 σ1 with
      | some r2 =>
        obtain ⟨⟨off2, acc2⟩, σ2⟩ := r2
        obtain ⟨h2pre, h2mono⟩ := bFoldGo_some hstep _ _ _ _ _ _ _ hg
        refine ⟨hpre.trans h2pre, ?_⟩
        intro off3 v h
        simp at h
        exact h.1 ▸ (hmono off1 a rfl).trans h2mono
      | none =>
        exact ⟨hpre, by intro off3 v h; simp at h⟩
    | error e =>
      exact ⟨hpre, by intro off3 v h; simp at h⟩

/-- Every parser built from the combinators satisfies the scanner
discipline, by induction over the combinator syntax. -/
theorem psy_disciplined : ∀ {α : Type} (p : PSy α), Disciplined (denote p) := by
  intro α p
  induction p with
  | newOkS v => exact disciplined_bNewOk v
  | newErrS e => exact disciplined_bNewErr e
  | newErrCurrentS c => exact disciplined_bNewErrCurrent c
  | nextCharS => exact disciplined_bNextCharP
  | stringEqS str => exact disciplined_bStringEqP str
  | mapS p f ih => exact disciplined_bMap ih f
  | mapErrS p f ih => exact disciplined_bMapErr ih f
  | andThenS p f ihp ihf => exact disciplined_bAndThen ihp ihf
  | orElseS p f ihp ihf => exact disciplined_bOrElse ihp ihf
  | thenOrS p f g ihp ihf ihg => exact disciplined_bThenOr ihp ihf ihg
  | optionalS p ih => exact disciplined_bOptional ih
  | foldS self step f ihself ihstep => exact disciplined_bFold ihself ihstep

/-- C9: every parser built from the combinators preserves the scanner
discipline — (1) the shared buffer is append-only: across any parse,
successful or failed, the input buffer is a prefix of the output buffer
(characters already materialized are never modified); (2) a successful
parse returns an offset at least the input offset; (3) a failed parse
leaves the caller's offset unchanged even though the buffer may have grown:
the failure carries no scanner, and `or_else` resumes its alternative at
the caller's original offset over the grown store. -/
theorem c9_scanner_discipline :
    (∀ (α : Type) (p : PSy α) (off : Nat) (σ : Store),
      σ.buffer <+: ((denote p) off σ).2.buffer) ∧
    (∀ (α : Type) (p : PSy α) (off : Nat) (σ : Store) (off2 : Nat) (v : α),
      ((denote p) off σ).1 = .ok (off2, v) → off ≤ off2) ∧
    (∀ (α : Type) (p : PSy α) (f : PError → PSy α) (off : Nat) (σ : Store)
      (e : PError) (σ1 : Store),
      (denote p) off σ = (.error e, σ1) →
      (denote (.orElseS p f)) off σ = (denote (f e)) off σ1) := by
  refine ⟨?_, ?_, ?_⟩
  · intro α p off σ
    exact (psy_disciplined p off σ).1
  · intro α p off σ off2 v h
    exact (psy_disciplined p off σ).2 off2 v h
  · intro α p f off σ e σ1 h
    show bOrElse (denote p) (fun e => denote (f e)) off σ = _
    unfold bOrElse
    rw [h]

/-- C9, witness: concrete instances of all three parts, for the literal
matcher `ab` over a scanner whose buffer is empty and whose iterator holds
`abc` (so the matcher materializes characters on demand), and for the
rewind of `or_else` after the failed literal `xy` has pulled two characters
into the shared buffer. -/
theorem c9_scanner_discipline_witness :
    (([] : List Char) <+:
      ((denote (PSy.stringEqS "ab")) 0 ⟨[], "abc".toList⟩).2.buffer) ∧
    ((0 : Nat) ≤ 2) ∧
    ((denote (PSy.orElseS (PSy.stringEqS "xy")
        (fun _ => PSy.stringEqS "ab"))) 0 ⟨[], "abc".toList⟩ =
      (denote (PSy.stringEqS "ab")) 0 ⟨"ab".toList, "c".toList⟩) :=
  ⟨c9_scanner_discipline.1 _ (PSy.stringEqS "ab") 0 ⟨[], "abc".toList⟩,
   c9_scanner_discipline.2.1 _ (PSy.stringEqS "ab") 0 ⟨[], "abc".toList⟩
     2 ⟨0, 2, "ab"⟩ rfl,
   c9_scanner_discipline.2.2 _ (PSy.stringEqS "xy") _ 0 ⟨[], "abc".toList⟩
     ⟨0, 0, .ExpectedString "xy"⟩ ⟨"ab".toList, "c".toList⟩ rfl⟩

/-! ## Claim C7 — `fold` and failure -/

/-- Pulling preserves the total number of characters (it only moves them
from the iterator to the buffer). -/
theorem pullTo_total (t : Nat) (σ : Store) : (σ.pullTo t).total = σ.total := by
  unfold Store.pullTo Store.total
  simp [List.length_append, List.length_take, List.length_drop]
  omega

/-- `next_char_parser` makes forward progress: a successful step advances
the offset by one, stays within the total input, and preserves the total. -/
theorem stepAdvances_bNextCharP : StepAdvances bNextCharP := by
  intro off σ off1 v σ1 h
  unfold bNextCharP scannerNext at h
  cases hg : (σ.pullTo (off + 1)).buffer.get? off with
  | some c =>
    rw [hg] at h
    simp at h
    obtain ⟨⟨h1, _⟩, h3⟩ := h
    have hlt : off < (σ.pullTo (off + 1)).buffer.length :=
      List.get?_eq_some.mp hg |>.1
    have htot := pullTo_total (off + 1) σ
    subst h1
    subst h3
    refine ⟨by omega, ?_, htot⟩
    have : (σ.pullTo (off + 1)).buffer.length ≤ (σ.pullTo (off + 1)).total := by
      unfold Store.total
      omega
    omega
  | none =>
    rw [hg] at h
    simp at h

/-- With a step that makes forward progress, the fold loop returns within
fuel exceeding the remaining input length. -/
theorem bFoldGo_sufficient {step : BParser β} (f : α → β → α)
    (hstep : StepAdvances step) :
    ∀ (fuel : Nat) (acc : α) (off : Nat) (σ : Store),
      off ≤ σ.total → σ.total < off + fuel →
      ∃ r, bFoldGo step f fuel acc off σ = some r := by
  intro fuel
  induction fuel with
  | zero =>
    intro acc off σ hle hlt
    omega
  | succ n ih =>
    intro acc off σ hle hlt
    unfold bFoldGo
    cases hr : step off σ with
    | mk res σ1 =>
      cases res with
      | ok r =>
        obtain ⟨off1, b⟩ := r
        obtain ⟨hadv, hbound, htot⟩ := hstep off σ off1 b σ1 hr
        obtain ⟨r2, hr2⟩ := ih (f acc b) off1 σ1 hbound (by omega)
        exact ⟨r2, hr2⟩
      | error e =>
        exact ⟨((off, acc), σ1), rfl⟩

/-- C7, counterexample: `fold` can fail — its receiver (the parser that
produces the initial accumulator) may fail, and `fold` then fails with the
receiver's diagnostic instead of returning a success.  (The source relies
on this: `integer_parser` reports `ExpectedInt` exactly because its `fold`
propagates the failure of the first required digit.) -/
theorem c7_fold_counterexample :
    denote (PSy.foldS (PSy.newErrCurrentS (α := Nat) ErrorCode.Eof)
        PSy.nextCharS (fun a _ => a)) 0 ⟨[], ['a']⟩ =
      (.error ⟨0, 0, .Eof⟩, ⟨[], ['a']⟩) := rfl

/-- C7, amended: `fold(step, acc)` adds no failures of its own but does
propagate its receiver's: when the parser producing the initial accumulator
fails, `fold` fails with that diagnostic; when it succeeds — and the step
parser satisfies the forward-progress obligation the spec imposes (each
successful step strictly advances the offset within the input) — `fold`
returns a success, folding each step success into the accumulator until the
step first fails. -/
theorem c7_fold_behavior :
    (∀ (α β : Type) (self : PSy α) (step : PSy β) (f : α → β → α)
      (off : Nat) (σ : Store) (e : PError) (σ1 : Store),
      denote self off σ = (.error e, σ1) →
      denote (.foldS self step f) off σ = (.error e, σ1)) ∧
    (∀ (α β : Type) (self : PSy α) (step : PSy β) (f : α → β → α)
      (off : Nat) (σ : Store) (off1 : Nat) (a : α) (σ1 : Store),
      StepAdvances (denote step) →
      denote self off σ = (.ok (off1, a), σ1) →
      off1 ≤ σ1.total →
      ∃ off2 acc σ2,
        denote (.foldS self step f) off σ = (.ok (off2, acc), σ2)) := by
  constructor
  · intro α β self step f off σ e σ1 h
    show bFold (denote self) (denote step) f off σ = _
    unfold bFold
    rw [h]
  · intro α β self step f off σ off1 a σ1 hstep h hle
    show ∃ off2 acc σ2, bFold (denote self) (denote step) f off σ =
      (.ok (off2, acc), σ2)
    unfold bFold
    rw [h]
    dsimp only
    obtain ⟨r, hr⟩ := bFoldGo_sufficient f hstep (σ1.total + 1) a off1 σ1 hle
      (by omega)
    rw [hr]
    exact ⟨r.1.1, r.1.2, r.2, rfl⟩

/-- C7, witness: both parts at concrete inputs — a failing receiver (a
positioned error) propagates through `fold`, and with the advancing step
`next_char_parser` a succeeding receiver makes `fold` succeed. -/
theorem c7_fold_behavior_witness :
    (denote (PSy.foldS (PSy.newErrS (α := Nat) ⟨1, 2, .Eof⟩)
        PSy.nextCharS (fun a _ => a)) 0 ⟨[], "ab".toList⟩ =
      (.error ⟨1, 2, .Eof⟩, ⟨[], "ab".toList⟩)) ∧
    (∃ off2 acc σ2,
      denote (PSy.foldS (PSy.newOkS (0 : Nat))
        PSy.nextCharS (fun a _ => a)) 0 ⟨[], "ab".toList⟩ =
      (.ok (off2, acc), σ2)) :=
  ⟨c7_fold_behavior.1 Nat (SpanT Char) _ _ _ 0 ⟨[], "ab".toList⟩
      ⟨1, 2, .Eof⟩ ⟨[], "ab".toList⟩ rfl,
   c7_fold_behavior.2 Nat (SpanT Char) _ _ _ 0 ⟨[], "ab".toList⟩ 0 0
      ⟨[], "ab".toList⟩ stepAdvances_bNextCharP rfl (by decide)⟩
